import Mathlib

/-!
# Verification of the `nzgd_sqlite` search/assembly subsystem

Shallow embedding of `src/nzgd_sqlite/orm.py` (peewee models and the two
query-builder functions `search_spt_reports` / `search_cpt_reports`) and of
`src/nzgd_sqlite/db.py` (the dataclass assemblers `NZGDRecord.from_orm`,
`SPTReport.from_orm`, `CPTReport.from_orm`, `VelocityProfile.from_orm` and the
facade `search_spt_reports`).

Conventions of the embedding:
* SQLite `FloatField` columns are modelled as `Rat` (only order and equality of
  the stored values matter to the verified properties), `IntegerField` as `Int`,
  `TextField`/`DateField` as `String`.
* Each peewee table is a `List` of row structures; a `Database` value is the
  whole store.  SQL query composition is modelled by executable list pipelines:
  an inner join is a `flatMap` over the matching rows, a `WHERE` clause is a
  `filter`, `GROUP BY`/`HAVING` is grouping by key in first-occurrence order
  followed by a group-level predicate, exactly mirroring the peewee calls in
  the source.
* Python runtime failures (`TypeError` from a bad keyword argument,
  `AttributeError` from a missing attribute, peewee's `DoesNotExist` from a
  dangling foreign key) are modelled with `Except PyError`.
* Python truthiness on optional float parameters (`if max_measurement_depth or
  min_measurement_depth:` in the source) is modelled by `truthy`, which is
  false for `none` and for a present value `0`.
-/

deriving instance DecidableEq for Except

/-- Python runtime errors that the modelled code can raise. -/
inductive PyError where
  | typeError : PyError
  | attributeError (attr : String) : PyError
  | doesNotExist (model : String) : PyError
deriving DecidableEq

/-- SQLite `LIKE` pattern matching over explicit character lists:
`%` matches any (possibly empty) character sequence — i.e. the rest of the
pattern must match some suffix of the subject — `_` matches exactly one
character, and ordinary characters compare ASCII-case-insensitively (SQLite's
default `LIKE` folds only ASCII letters, as does Lean's `Char.toLower`). -/
def likeMatch : List Char → List Char → Bool
  | [], s => s.isEmpty
  | '%' :: ps, s => s.tails.any (fun t => likeMatch ps t)
  | '_' :: ps, s =>
    match s with
    | [] => false
    | _ :: s2 => likeMatch ps s2
  | p :: ps, s =>
    match s with
    | [] => false
    | c :: s2 => (p.toLower == c.toLower) && likeMatch ps s2

namespace Orm

/-- Row of the `Region` table (`orm.Region`). -/
structure Region where
  region_id : Int
  name : String
deriving DecidableEq

/-- Row of the `City` table (`orm.City`). -/
structure City where
  city_id : Int
  name : String
deriving DecidableEq

/-- Row of the `District` table (`orm.District`). -/
structure District where
  district_id : Int
  name : String
deriving DecidableEq

/-- Row of the `Suburb` table (`orm.Suburb`). -/
structure Suburb where
  suburb_id : Int
  name : String
deriving DecidableEq

/-- Row of the `NZGDRecord` table (`orm.NZGDRecord`).  The four geography
columns are foreign keys, stored as the referenced integer ids. -/
structure NZGDRecord where
  nzgd_id : Int
  original_reference : String
  investigation_date : String
  published_date : String
  latitude : Rat
  longitude : Rat
  region_id : Int
  district_id : Int
  city_id : Int
  suburb_id : Int
deriving DecidableEq

/-- Row of the `SPTReport` table (`orm.SPTReport`). -/
structure SPTReport where
  borehole_id : Int
  nzgd_id : Int
  borehole_file : String
  efficiency : Rat
  borehole_diameter : Rat
deriving DecidableEq

/-- Row of the `SPTMeasurements` table (`orm.SPTMeasurements`). -/
structure SPTMeasurements where
  id : Int
  borehole_id : Int
  depth : Rat
  n : Int
deriving DecidableEq

/-- Row of the `VelocityProfiles` table (`orm.VelocityProfiles`). -/
structure VelocityProfiles where
  profile_id : Int
  nzgd_id : Int
  profile_file : String
deriving DecidableEq

/-- Row of the `VsMeasurements` table (`orm.VsMeasurements`). -/
structure VsMeasurements where
  measurement_id : Int
  profile_id : Int
  depth : Rat
  vs : Rat
deriving DecidableEq

/-- Row of the `CPTReport` table (`orm.CPTReport`). -/
structure CPTReport where
  cpt_id : Int
  nzgd_id : Int
  cpt_file : String
deriving DecidableEq

/-- Row of the `CPTMeasurements` table (`orm.CPTMeasurements`). -/
structure CPTMeasurements where
  measurement_id : Int
  cpt_id : Int
  depth : Rat
  qc : Rat
  fs : Rat
  u2 : Rat
deriving DecidableEq

/-- Row of the `SoilMeasurements` table (`orm.SoilMeasurements`).  The declared
columns are exactly `measurement_id`, `report_id` and `top_depth`; the schema
has no `bottom_depth` column. -/
structure SoilMeasurements where
  measurement_id : Int
  report_id : Int
  top_depth : Rat
deriving DecidableEq

/-- Row of the `SoilTypes` table (`orm.SoilTypes`). -/
structure SoilTypes where
  id : Int
  name : String
deriving DecidableEq

/-- Row of the junction table `SoilMeasurementSoilType`. -/
structure SoilMeasurementSoilType where
  soil_measurement_id : Int
  soil_type_id : Int
deriving DecidableEq

/-- Row of the `CPTMaxDepth` summary table (`orm.CPTMaxDepth`). -/
structure CPTMaxDepth where
  cpt_id : Int
  max_depth : Rat
deriving DecidableEq

/-- The whole SQLite store: one list of rows per declared table. -/
structure Database where
  regions : List Region
  cities : List City
  districts : List District
  suburbs : List Suburb
  nzgd_records : List NZGDRecord
  spt_reports : List SPTReport
  spt_measurements : List SPTMeasurements
  velocity_profiles : List VelocityProfiles
  vs_measurements : List VsMeasurements
  cpt_reports : List CPTReport
  cpt_measurements : List CPTMeasurements
  soil_measurements : List SoilMeasurements
  soil_types : List SoilTypes
  soil_measurement_soil_types : List SoilMeasurementSoilType
  cpt_max_depths : List CPTMaxDepth
deriving DecidableEq

/-- The optional keyword parameters of `orm.search_spt_reports`. -/
structure SPTSearchArgs where
  borehole_id : Option Int
  min_efficiency : Option Rat
  max_efficiency : Option Rat
  min_diameter : Option Rat
  max_diameter : Option Rat
  nzgd_id : Option Int
  original_reference : Option String
  max_measurement_depth : Option Rat
  min_measurement_depth : Option Rat
  region : Option String
  district : Option String
  city : Option String
  suburb : Option String
deriving DecidableEq

/-- The optional keyword parameters of `orm.search_cpt_reports`. -/
structure CPTSearchArgs where
  cpt_id : Option Int
  nzgd_id : Option Int
  original_reference : Option String
  region : Option String
  district : Option String
  city : Option String
  suburb : Option String
  max_measurement_depth : Option Rat
  min_measurement_depth : Option Rat
deriving DecidableEq

/-- peewee's `Field.contains(substr)` renders as `LIKE '%substr%'` on SQLite
(peewee emits the `ILIKE` operation, which SqliteDatabase rewrites to `LIKE`);
the needle is interpolated without escaping. -/
def contains (haystack needle : String) : Bool :=
  likeMatch ('%' :: (needle.data ++ ['%'])) haystack.data

/-- Python truthiness of an optional float: `None` and `0.0` are falsy.
This models the source's `if max_measurement_depth or min_measurement_depth:`
and the nested `if max_measurement_depth:` / `if min_measurement_depth:`. -/
def truthy : Option Rat → Bool
  | none => false
  | some x => x != 0

/-- Evaluate an optional filter: an omitted argument imposes no condition. -/
def passOpt {β : Type} (o : Option β) (p : β → Bool) : Bool :=
  match o with
  | none => true
  | some v => p v

/-- A conditional `WHERE` clause: applied only when the argument is present. -/
def whereOpt {α β : Type} (o : Option β) (p : β → α → Bool) (rows : List α) : List α :=
  match o with
  | none => rows
  | some v => rows.filter (p v)

/-- A conditional inner join against a geography lookup table combined with the
`WHERE name == value` filter that the source attaches to it.  Each working row
is kept once per lookup row matching both the join condition and the name. -/
def geoJoin {α γ : Type} (o : Option String) (table : List γ) (gid : γ → Int)
    (gname : γ → String) (fk : NZGDRecord → Int) (nz : α → NZGDRecord)
    (rows : List α) : List α :=
  match o with
  | none => rows
  | some nm =>
    rows.flatMap (fun rn =>
      (table.filter (fun g => gid g == fk (nz rn) && gname g == nm)).map (fun _ => rn))

/-- Keys not yet seen, in first-occurrence order (helper of `uniqueKeys`). -/
def uniqueKeysAux (seen : List Int) : List Int → List Int
  | [] => []
  | k :: ks => if k ∈ seen then uniqueKeysAux seen ks else k :: uniqueKeysAux (k :: seen) ks

/-- Group keys in first-occurrence order (the grouping skeleton of `GROUP BY`). -/
def uniqueKeys (l : List Int) : List Int :=
  uniqueKeysAux [] l

/-- The `HAVING` conjunction of the depth-range clauses: each bound is enforced
only when truthy, mirroring `if max_measurement_depth:` and
`if min_measurement_depth:` in the source. -/
def havingOk (maxB minB : Option Rat) (x : Rat) : Bool :=
  (!truthy maxB || decide (x ≤ maxB.getD 0)) && (!truthy minB || decide (minB.getD 0 ≤ x))

/-- Maximum of a list of rationals; `SQL MAX` is only consulted on nonempty
groups, where the seed for `[]` is irrelevant. -/
def maxList : List Rat → Rat
  | [] => 0
  | d :: ds => ds.foldl max d

/-- Inner join of working rows against a child table keyed by the report id. -/
def childJoin {ρ χ : Type} (keyOf : ρ → Int) (children : Int → List χ)
    (base : List ρ) : List (ρ × χ) :=
  base.flatMap (fun rn => (children (keyOf rn)).map (fun m => (rn, m)))

/-- `GROUP BY` the report key followed by `HAVING`: one output row per distinct
key, taken from the group's first row, kept when the aggregate condition on the
group's child rows holds. -/
def groupedHaving {ρ χ : Type} (keyOf : ρ → Int) (agg : χ → List χ → Rat)
    (maxB minB : Option Rat) (rows : List (ρ × χ)) : List ρ :=
  (uniqueKeys (rows.map (fun t => keyOf t.1))).filterMap (fun k =>
    match rows.filter (fun t => keyOf t.1 == k) with
    | [] => none
    | m :: ms =>
      if havingOk maxB minB (agg m.2 (ms.map (fun t => t.2))) then some m.1 else none)

/-- The unconditional `SPTReport.select(SPTReport).join(NZGDRecord, JOIN.INNER)`
of the source: every report row paired with each investigation row whose
primary key equals the report's `nzgd_id` foreign key. -/
def sptJoinNzgd (db : Database) : List (SPTReport × NZGDRecord) :=
  db.spt_reports.flatMap (fun r =>
    (db.nzgd_records.filter (fun nr => nr.nzgd_id == r.nzgd_id)).map (fun nr => (r, nr)))

/-- Child rows of an SPT report (the `measurements` backref). -/
def sptMeasurementsOf (db : Database) (bid : Int) : List SPTMeasurements :=
  db.spt_measurements.filter (fun m => m.borehole_id == bid)

/-- Depth column of an SPT report's measurement rows. -/
def sptDepthsOf (db : Database) (bid : Int) : List Rat :=
  (sptMeasurementsOf db bid).map (fun m => m.depth)

/-- The filtered, conditionally joined query of `orm.search_spt_reports` before
the measurement-depth stage: base join, the seven optional `WHERE` clauses and
the four conditional geography joins, in source order. -/
def sptBase (db : Database) (a : SPTSearchArgs) : List (SPTReport × NZGDRecord) :=
  geoJoin a.suburb db.suburbs (fun g => g.suburb_id) (fun g => g.name)
    (fun nr => nr.suburb_id) Prod.snd
  (geoJoin a.city db.cities (fun g => g.city_id) (fun g => g.name)
    (fun nr => nr.city_id) Prod.snd
  (geoJoin a.district db.districts (fun g => g.district_id) (fun g => g.name)
    (fun nr => nr.district_id) Prod.snd
  (geoJoin a.region db.regions (fun g => g.region_id) (fun g => g.name)
    (fun nr => nr.region_id) Prod.snd
  (whereOpt a.original_reference (fun v rn => contains rn.2.original_reference v)
  (whereOpt a.nzgd_id (fun v rn => rn.2.nzgd_id == v)
  (whereOpt a.max_diameter (fun v rn => decide (rn.1.borehole_diameter ≤ v))
  (whereOpt a.min_diameter (fun v rn => decide (v ≤ rn.1.borehole_diameter))
  (whereOpt a.max_efficiency (fun v rn => decide (rn.1.efficiency ≤ v))
  (whereOpt a.min_efficiency (fun v rn => decide (v ≤ rn.1.efficiency))
  (whereOpt a.borehole_id (fun v rn => rn.1.borehole_id == v)
  (sptJoinNzgd db)))))))))))

/-- `orm.search_spt_reports`: when either measurement-depth argument is truthy
the query additionally inner-joins `SPTMeasurements`, groups by
`SPTReport.borehole_id` and filters groups with `HAVING MAX(depth)` bounds;
otherwise the base query's report rows are returned directly. -/
def search_spt_reports (db : Database) (a : SPTSearchArgs) : List SPTReport :=
  let base := sptBase db a
  if truthy a.max_measurement_depth || truthy a.min_measurement_depth then
    (groupedHaving (fun rn => rn.1.borehole_id)
      (fun m ms => (ms.map (fun t => t.depth)).foldl max m.depth)
      a.max_measurement_depth a.min_measurement_depth
      (childJoin (fun rn => rn.1.borehole_id) (fun k => sptMeasurementsOf db k) base)).map
      Prod.fst
  else base.map Prod.fst

/-- Child rows of a CPT report in the summary table (the `max_depth` backref). -/
def cptMaxDepthsOf (db : Database) (cid : Int) : List CPTMaxDepth :=
  db.cpt_max_depths.filter (fun m => m.cpt_id == cid)

/-- Child rows of a CPT report (the `measurements` backref). -/
def cptMeasurementsOf (db : Database) (cid : Int) : List CPTMeasurements :=
  db.cpt_measurements.filter (fun m => m.cpt_id == cid)

/-- Depth column of a CPT report's measurement rows. -/
def cptDepthsOf (db : Database) (cid : Int) : List Rat :=
  (cptMeasurementsOf db cid).map (fun m => m.depth)

/-- The unconditional base join of `orm.search_cpt_reports`. -/
def cptJoinNzgd (db : Database) : List (CPTReport × NZGDRecord) :=
  db.cpt_reports.flatMap (fun r =>
    (db.nzgd_records.filter (fun nr => nr.nzgd_id == r.nzgd_id)).map (fun nr => (r, nr)))

/-- The filtered, conditionally joined query of `orm.search_cpt_reports` before
the measurement-depth stage. -/
def cptBase (db : Database) (a : CPTSearchArgs) : List (CPTReport × NZGDRecord) :=
  geoJoin a.suburb db.suburbs (fun g => g.suburb_id) (fun g => g.name)
    (fun nr => nr.suburb_id) Prod.snd
  (geoJoin a.city db.cities (fun g => g.city_id) (fun g => g.name)
    (fun nr => nr.city_id) Prod.snd
  (geoJoin a.district db.districts (fun g => g.district_id) (fun g => g.name)
    (fun nr => nr.district_id) Prod.snd
  (geoJoin a.region db.regions (fun g => g.region_id) (fun g => g.name)
    (fun nr => nr.region_id) Prod.snd
  (whereOpt a.original_reference (fun v rn => contains rn.2.original_reference v)
  (whereOpt a.nzgd_id (fun v rn => rn.2.nzgd_id == v)
  (whereOpt a.cpt_id (fun v rn => rn.1.cpt_id == v)
  (cptJoinNzgd db)))))))

/-- `orm.search_cpt_reports`: the depth-range stage inner-joins the precomputed
`CPTMaxDepth` summary table, groups by `CPTReport.cpt_id`, and the `HAVING`
clauses compare the bare `CPTMaxDepth.max_depth` column (SQLite evaluates a
bare column in `HAVING` on a row of the group; the model takes the group's
first row, which is the unique one under primary-key uniqueness). -/
def search_cpt_reports (db : Database) (a : CPTSearchArgs) : List CPTReport :=
  let base := cptBase db a
  if truthy a.max_measurement_depth || truthy a.min_measurement_depth then
    (groupedHaving (fun rn => rn.1.cpt_id)
      (fun m _ms => m.max_depth)
      a.max_measurement_depth a.min_measurement_depth
      (childJoin (fun rn => rn.1.cpt_id) (fun k => cptMaxDepthsOf db k) base)).map
      Prod.fst
  else base.map Prod.fst

/-- Modelled from the spec: the penetration-test-style depth filtering applied
to cone reports — the scan-based aggregate the spec's Query Builder contract
describes (`HAVING MAX(depth) <= upper` and/or `>= lower` over the cone
measurement child table, grouped by report id).  This comparison query is not
in the repository; it is the reference point of the refinement claim about the
precomputed max-depth path. -/
def search_cpt_reports_scan (db : Database) (a : CPTSearchArgs) : List CPTReport :=
  let base := cptBase db a
  if truthy a.max_measurement_depth || truthy a.min_measurement_depth then
    (groupedHaving (fun rn => rn.1.cpt_id)
      (fun m ms => (ms.map (fun t => t.depth)).foldl max m.depth)
      a.max_measurement_depth a.min_measurement_depth
      (childJoin (fun rn => rn.1.cpt_id) (fun k => cptMeasurementsOf db k) base)).map
      Prod.fst
  else base.map Prod.fst

end Orm

namespace Db

/-- Assembled investigation record (`db.NZGDRecord` dataclass): geography ids
replaced by looked-up names. -/
structure NZGDRecord where
  nzgd_id : Int
  original_reference : String
  investigation_date : String
  published_date : String
  latitude : Rat
  longitude : Rat
  region : String
  city : String
  district : String
  suburb : String
deriving DecidableEq

/-- One row of the assembled SPT measurement DataFrame ({"depth", "n_value"}). -/
structure SPTPoint where
  depth : Rat
  n_value : Int
deriving DecidableEq

/-- One row of the assembled CPT measurement DataFrame ({"depth","qc","fs","u2"}). -/
structure CPTPoint where
  depth : Rat
  qc : Rat
  fs : Rat
  u2 : Rat
deriving DecidableEq

/-- One row of the assembled Vs measurement DataFrame ({"depth","vs"}). -/
structure VsPoint where
  depth : Rat
  vs : Rat
deriving DecidableEq

/-- An `intervaltree.Interval(begin, end, data)` as added by the assembler. -/
structure SoilInterval where
  ibegin : Rat
  iend : Rat
  data : Orm.SoilMeasurements
deriving DecidableEq

/-- Assembled SPT report (`db.SPTReport` dataclass). -/
structure SPTReport where
  borehole_id : Int
  borehole_file : String
  efficiency : Rat
  borehole_diameter : Rat
  nzgd_record : NZGDRecord
  measurements : List SPTPoint
  soil_measurements : List SoilInterval
deriving DecidableEq

/-- Assembled CPT report (`db.CPTReport` dataclass). -/
structure CPTReport where
  cpt_id : Int
  cpt_file : String
  measurements : List CPTPoint
deriving DecidableEq

/-- Assembled velocity profile (`db.VelocityProfile` dataclass). -/
structure VelocityProfile where
  profile_id : Int
  profile_file : String
  vs_measurements : List VsPoint
deriving DecidableEq

/-- peewee's lazy foreign-key resolution: fetch the single row whose key equals
the stored id, raising the model's `DoesNotExist` when there is none. -/
def fkLookup {ρ : Type} (table : List ρ) (keyOf : ρ → Int) (i : Int)
    (model : String) : Except PyError ρ :=
  match table.find? (fun g => keyOf g == i) with
  | some g => Except.ok g
  | none => Except.error (PyError.doesNotExist model)

/-- Attribute access for the geography object accessors that
`db.NZGDRecord.from_orm` uses.  peewee exposes the related object under the
foreign-key field's own declared name — here `region_id`, `district_id`,
`city_id`, `suburb_id` — while the `backref` string only installs a reverse
accessor on the *target* model (e.g. `Region.region`).  Any other attribute
name on an `orm.NZGDRecord` instance raises `AttributeError`. -/
def nzgdGeographyName (db : Orm.Database) (record : Orm.NZGDRecord)
    (attr : String) : Except PyError String :=
  if attr == "region_id" then
    (fkLookup db.regions (fun g => g.region_id) record.region_id "Region").map
      (fun g => g.name)
  else if attr == "district_id" then
    (fkLookup db.districts (fun g => g.district_id) record.district_id "District").map
      (fun g => g.name)
  else if attr == "city_id" then
    (fkLookup db.cities (fun g => g.city_id) record.city_id "City").map
      (fun g => g.name)
  else if attr == "suburb_id" then
    (fkLookup db.suburbs (fun g => g.suburb_id) record.suburb_id "Suburb").map
      (fun g => g.name)
  else Except.error (PyError.attributeError attr)

/-- `db.NZGDRecord.from_orm`: the source reads `record.region.name`,
`record.district.name`, `record.city.name`, `record.suburb.name`, i.e. it
accesses the attributes named `region`, `district`, `city`, `suburb` on the ORM
record, in that evaluation order. -/
def NZGDRecord.from_orm (db : Orm.Database) (record : Orm.NZGDRecord) :
    Except PyError NZGDRecord := do
  let region ← nzgdGeographyName db record "region"
  let district ← nzgdGeographyName db record "district"
  let city ← nzgdGeographyName db record "city"
  let suburb ← nzgdGeographyName db record "suburb"
  Except.ok
    { nzgd_id := record.nzgd_id
      original_reference := record.original_reference
      investigation_date := record.investigation_date
      published_date := record.published_date
      latitude := record.latitude
      longitude := record.longitude
      region := region
      city := city
      district := district
      suburb := suburb }

/-- Attribute access on an `orm.SoilMeasurements` row for its float columns.
Only `top_depth` is a declared column; in particular `bottom_depth`, which the
assembler reads, is not, and raises `AttributeError`. -/
def soilDepthAttr (s : Orm.SoilMeasurements) (attr : String) : Except PyError Rat :=
  if attr == "top_depth" then Except.ok s.top_depth
  else Except.error (PyError.attributeError attr)

/-- The `soil_measurements` backref of an SPT report. -/
def soilMeasurementsOf (db : Orm.Database) (report : Orm.SPTReport) :
    List Orm.SoilMeasurements :=
  db.soil_measurements.filter (fun s => s.report_id == report.borehole_id)

/-- The `soil_types` backref of a soil layer: the junction rows referencing it. -/
def soilTypeLinksOf (db : Orm.Database) (s : Orm.SoilMeasurements) :
    List Orm.SoilMeasurementSoilType :=
  db.soil_measurement_soil_types.filter (fun j => j.soil_measurement_id == s.measurement_id)

/-- `IntervalTree.add`: the tree is a set of intervals, so adding an interval
already present leaves it unchanged. -/
def treeAdd (tree : List SoilInterval) (iv : SoilInterval) : List SoilInterval :=
  if iv ∈ tree then tree else tree ++ [iv]

/-- One iteration of the inner loop of the soil-layer construction: the source
evaluates `Interval(s.top_depth, s.bottom_depth, s)` and would add it to the
tree; the `bottom_depth` attribute access fails first. -/
def soilIntervalStep (s : Orm.SoilMeasurements) (tree2 : List SoilInterval)
    (_link : Orm.SoilMeasurementSoilType) : Except PyError (List SoilInterval) := do
  let top ← soilDepthAttr s "top_depth"
  let bottom ← soilDepthAttr s "bottom_depth"
  Except.ok (treeAdd tree2 { ibegin := top, iend := bottom, data := s })

/-- One iteration of the outer loop: `for soil_type in s.soil_types:` runs the
inner step once per junction row of the layer. -/
def soilLayerStep (db : Orm.Database) (tree : List SoilInterval)
    (s : Orm.SoilMeasurements) : Except PyError (List SoilInterval) :=
  (soilTypeLinksOf db s).foldlM (soilIntervalStep s) tree

/-- The soil-layer loop of `db.SPTReport.from_orm`: layers sorted by
`top_depth` (Python's stable `sorted`, modelled by the stable ascending
`insertionSort`), then the nested loops over layers and their junction rows,
starting from an empty tree. -/
def buildSoilTree (db : Orm.Database) (report : Orm.SPTReport) :
    Except PyError (List SoilInterval) :=
  ((soilMeasurementsOf db report).insertionSort
      (fun a b => a.top_depth ≤ b.top_depth)).foldlM (soilLayerStep db) []

/-- The measurement DataFrame of `db.SPTReport.from_orm`: rows sorted by depth
with Python's stable `sorted` (modelled by the stable ascending `insertionSort`), packed into {"depth", "n_value"} records. -/
def sptMeasurementsTable (rows : List Orm.SPTMeasurements) : List SPTPoint :=
  (rows.insertionSort (fun a b => a.depth ≤ b.depth)).map
    (fun m => { depth := m.depth, n_value := m.n })

/-- `db.SPTReport.from_orm`: builds the measurement DataFrame, then the soil
interval tree, then resolves the parent investigation through
`NZGDRecord.from_orm(report.nzgd_id)`. -/
def SPTReport.from_orm (db : Orm.Database) (report : Orm.SPTReport) :
    Except PyError SPTReport := do
  let measurements := sptMeasurementsTable (Orm.sptMeasurementsOf db report.borehole_id)
  let tree ← buildSoilTree db report
  let parent ← fkLookup db.nzgd_records (fun nr => nr.nzgd_id) report.nzgd_id "NZGDRecord"
  let nzgd_record ← NZGDRecord.from_orm db parent
  Except.ok
    { borehole_id := report.borehole_id
      borehole_file := report.borehole_file
      efficiency := report.efficiency
      borehole_diameter := report.borehole_diameter
      nzgd_record := nzgd_record
      measurements := measurements
      soil_measurements := tree }

/-- The measurement DataFrame of `db.CPTReport.from_orm`. -/
def cptMeasurementsTable (rows : List Orm.CPTMeasurements) : List CPTPoint :=
  (rows.insertionSort (fun a b => a.depth ≤ b.depth)).map
    (fun m => { depth := m.depth, qc := m.qc, fs := m.fs, u2 := m.u2 })

/-- `db.CPTReport.from_orm`: packs the sorted measurement series; it touches no
foreign key and no soil data, so it is total. -/
def CPTReport.from_orm (db : Orm.Database) (report : Orm.CPTReport) : CPTReport :=
  { cpt_id := report.cpt_id
    cpt_file := report.cpt_file
    measurements := cptMeasurementsTable (Orm.cptMeasurementsOf db report.cpt_id) }

/-- The `vs_measurements` backref of a velocity profile. -/
def vsMeasurementsOf (db : Orm.Database) (pid : Int) : List Orm.VsMeasurements :=
  db.vs_measurements.filter (fun m => m.profile_id == pid)

/-- The measurement DataFrame of `db.VelocityProfile.from_orm`. -/
def vsMeasurementsTable (rows : List Orm.VsMeasurements) : List VsPoint :=
  (rows.insertionSort (fun a b => a.depth ≤ b.depth)).map
    (fun m => { depth := m.depth, vs := m.vs })

/-- `db.VelocityProfile.from_orm`: packs the sorted Vs series; total. -/
def VelocityProfile.from_orm (db : Orm.Database) (profile : Orm.VelocityProfiles) :
    VelocityProfile :=
  { profile_id := profile.profile_id
    profile_file := profile.profile_file
    vs_measurements := vsMeasurementsTable (vsMeasurementsOf db profile.profile_id) }

/-- The keyword parameters accepted by `orm.search_spt_reports` (its formal
parameter list). -/
def ormSearchSptParamNames : List String :=
  ["borehole_id", "min_efficiency", "max_efficiency", "min_diameter",
   "max_diameter", "nzgd_id", "original_reference", "max_measurement_depth",
   "min_measurement_depth", "region", "district", "city", "suburb"]

/-- The keyword arguments `db.search_spt_reports` passes in its call to
`orm.search_spt_reports` — including `region_name`, which is not a parameter of
the callee. -/
def facadeForwardedKeywords : List String :=
  ["borehole_id", "min_efficiency", "max_efficiency", "min_diameter",
   "max_diameter", "nzgd_id", "original_reference", "max_measurement_depth",
   "min_measurement_depth", "region_name"]

/-- The optional parameters of the facade `db.search_spt_reports`. -/
structure FacadeSPTArgs where
  borehole_id : Option Int
  min_efficiency : Option Rat
  max_efficiency : Option Rat
  min_diameter : Option Rat
  max_diameter : Option Rat
  nzgd_id : Option Int
  original_reference : Option String
  max_measurement_depth : Option Rat
  min_measurement_depth : Option Rat
  region : Option String
deriving DecidableEq

/-- `db.search_spt_reports`: Python checks the keyword arguments of the call
against the callee's parameter list before executing the callee's body; an
unexpected keyword raises `TypeError` there, so the query is neither built nor
run.  Only if every forwarded keyword were accepted would the facade run the
ORM search and assemble each hit. -/
def search_spt_reports (db : Orm.Database) (a : FacadeSPTArgs) :
    Except PyError (List SPTReport) :=
  if facadeForwardedKeywords.all (fun k => ormSearchSptParamNames.contains k) then
    (Orm.search_spt_reports db
        { borehole_id := a.borehole_id
          min_efficiency := a.min_efficiency
          max_efficiency := a.max_efficiency
          min_diameter := a.min_diameter
          max_diameter := a.max_diameter
          nzgd_id := a.nzgd_id
          original_reference := a.original_reference
          max_measurement_depth := a.max_measurement_depth
          min_measurement_depth := a.min_measurement_depth
          region := a.region
          district := none
          city := none
          suburb := none }).mapM (SPTReport.from_orm db)
  else Except.error PyError.typeError

end Db

namespace Orm

/-- Declarative reading of the row-level filters of `search_spt_reports` on a
joined (report, investigation) pair: every supplied argument must hold of the
pair, an omitted argument imposing no constraint. -/
def sptRowMatches (db : Database) (a : SPTSearchArgs) (rn : SPTReport × NZGDRecord) : Bool :=
  passOpt a.borehole_id (fun v => rn.1.borehole_id == v) &&
  passOpt a.min_efficiency (fun v => decide (v ≤ rn.1.efficiency)) &&
  passOpt a.max_efficiency (fun v => decide (rn.1.efficiency ≤ v)) &&
  passOpt a.min_diameter (fun v => decide (v ≤ rn.1.borehole_diameter)) &&
  passOpt a.max_diameter (fun v => decide (rn.1.borehole_diameter ≤ v)) &&
  passOpt a.nzgd_id (fun v => rn.2.nzgd_id == v) &&
  passOpt a.original_reference (fun v => contains rn.2.original_reference v) &&
  passOpt a.region
    (fun nm => db.regions.any (fun g => g.region_id == rn.2.region_id && g.name == nm)) &&
  passOpt a.district
    (fun nm => db.districts.any (fun g => g.district_id == rn.2.district_id && g.name == nm)) &&
  passOpt a.city
    (fun nm => db.cities.any (fun g => g.city_id == rn.2.city_id && g.name == nm)) &&
  passOpt a.suburb
    (fun nm => db.suburbs.any (fun g => g.suburb_id == rn.2.suburb_id && g.name == nm))

/-- Declarative reading of the measurement-depth stage for one report id: when
a truthy bound is supplied the report needs at least one measurement row and
its maximum depth must satisfy each truthy bound; otherwise no constraint. -/
def sptDepthFilterOk (db : Database) (a : SPTSearchArgs) (bid : Int) : Bool :=
  if truthy a.max_measurement_depth || truthy a.min_measurement_depth then
    !(sptMeasurementsOf db bid).isEmpty &&
      havingOk a.max_measurement_depth a.min_measurement_depth (maxList (sptDepthsOf db bid))
  else true

/-- Declarative criteria-satisfaction predicate for a stored SPT report: some
investigation row joins to it and satisfies the row-level filters, and the
depth-stage condition holds for its id. -/
def sptMatches (db : Database) (a : SPTSearchArgs) (r : SPTReport) : Bool :=
  db.nzgd_records.any (fun nr => (nr.nzgd_id == r.nzgd_id) && sptRowMatches db a (r, nr)) &&
    sptDepthFilterOk db a r.borehole_id

/-- Declarative reading of the row-level filters of `search_cpt_reports`. -/
def cptRowMatches (db : Database) (a : CPTSearchArgs) (rn : CPTReport × NZGDRecord) : Bool :=
  passOpt a.cpt_id (fun v => rn.1.cpt_id == v) &&
  passOpt a.nzgd_id (fun v => rn.2.nzgd_id == v) &&
  passOpt a.original_reference (fun v => contains rn.2.original_reference v) &&
  passOpt a.region
    (fun nm => db.regions.any (fun g => g.region_id == rn.2.region_id && g.name == nm)) &&
  passOpt a.district
    (fun nm => db.districts.any (fun g => g.district_id == rn.2.district_id && g.name == nm)) &&
  passOpt a.city
    (fun nm => db.cities.any (fun g => g.city_id == rn.2.city_id && g.name == nm)) &&
  passOpt a.suburb
    (fun nm => db.suburbs.any (fun g => g.suburb_id == rn.2.suburb_id && g.name == nm))

/-- Primary-key uniqueness of the tables consulted by the searches, as SQLite
enforces for the declared `primary_key` columns. -/
def WellFormedDB (db : Database) : Prop :=
  (db.spt_reports.map (fun r => r.borehole_id)).Nodup ∧
  (db.nzgd_records.map (fun nr => nr.nzgd_id)).Nodup ∧
  (db.regions.map (fun g => g.region_id)).Nodup ∧
  (db.districts.map (fun g => g.district_id)).Nodup ∧
  (db.cities.map (fun g => g.city_id)).Nodup ∧
  (db.suburbs.map (fun g => g.suburb_id)).Nodup ∧
  (db.cpt_reports.map (fun r => r.cpt_id)).Nodup ∧
  (db.cpt_max_depths.map (fun m => m.cpt_id)).Nodup

/-- The spec's derived-data invariant on the cone max-depth summary table:
every summary row records the maximum depth of a nonempty cone measurement
series (a maximum only exists for a nonempty series), and every cone report
with measurements has a summary row. -/
def CPTMaxDepthInvariant (db : Database) : Prop :=
  (∀ md ∈ db.cpt_max_depths,
      cptMeasurementsOf db md.cpt_id ≠ [] ∧
        md.max_depth = maxList (cptDepthsOf db md.cpt_id)) ∧
  ∀ r ∈ db.cpt_reports, cptMeasurementsOf db r.cpt_id ≠ [] →
    ∃ md ∈ db.cpt_max_depths, md.cpt_id = r.cpt_id

end Orm

/-- All-omitted SPT search arguments. -/
def sptNoArgs : Orm.SPTSearchArgs :=
  ⟨none, none, none, none, none, none, none, none, none, none, none, none, none⟩

/-- All-omitted CPT search arguments. -/
def cptNoArgs : Orm.CPTSearchArgs :=
  ⟨none, none, none, none, none, none, none, none, none⟩

/-- All-omitted facade search arguments. -/
def facadeNoArgs : Db.FacadeSPTArgs :=
  ⟨none, none, none, none, none, none, none, none, none, none⟩

/-- Example investigation row: original reference in upper case, all four
geography foreign keys pointing at the id-1 lookup rows. -/
def exNzgd : Orm.NZGDRecord := ⟨1, "ABC", "2020-01-01", "2020-02-01", 0, 0, 1, 1, 1, 1⟩

/-- Example SPT report row with efficiency 72 and diameter 100. -/
def exSpt : Orm.SPTReport := ⟨1, 1, "bh.pdf", 72, 100⟩

/-- Example CPT report row. -/
def exCpt : Orm.CPTReport := ⟨1, 1, "c.pdf"⟩

/-- Example store: one investigation with complete geography lookups, one SPT
report with measurement depths 2 and 3, one CPT report with measurement depths
5 and 7 and its max-depth summary row 7, and no soil layers. -/
def dbA : Orm.Database :=
  { regions := [⟨1, "Canterbury"⟩]
    cities := [⟨1, "Christchurch"⟩]
    districts := [⟨1, "Selwyn"⟩]
    suburbs := [⟨1, "Ilam"⟩]
    nzgd_records := [exNzgd]
    spt_reports := [exSpt]
    spt_measurements := [⟨1, 1, 2, 10⟩, ⟨2, 1, 3, 12⟩]
    velocity_profiles := []
    vs_measurements := []
    cpt_reports := [exCpt]
    cpt_measurements := [⟨1, 1, 5, 1, 1, 1⟩, ⟨2, 1, 7, 1, 1, 1⟩]
    soil_measurements := []
    soil_types := []
    soil_measurement_soil_types := []
    cpt_max_depths := [⟨1, 7⟩] }

/-- Example store extending `dbA` with the spec's two-layer soil scenario:
layer 1 at top depth 0 labelled SAND, layer 2 at top depth 2 labelled CLAY and
SILT (two junction rows). -/
def dbSoil : Orm.Database :=
  { dbA with
    soil_measurements := [⟨1, 1, 0⟩, ⟨2, 1, 2⟩]
    soil_types := [⟨1, "SAND"⟩, ⟨2, "CLAY"⟩, ⟨3, "SILT"⟩]
    soil_measurement_soil_types := [⟨1, 1⟩, ⟨2, 2⟩, ⟨2, 3⟩] }

namespace Orm

theorem passOpt_eq_true_iff {β : Type} (o : Option β) (p : β → Bool) :
    passOpt o p = true ↔ ∀ v, o = some v → p v = true := by
  cases o <;> simp [passOpt]

theorem mem_whereOpt {α β : Type} (o : Option β) (p : β → α → Bool) (rows : List α) (x : α) :
    x ∈ whereOpt o p rows ↔ x ∈ rows ∧ passOpt o (fun v => p v x) = true := by
  cases o with
  | none => simp [whereOpt, passOpt]
  | some v => simp [whereOpt, passOpt, List.mem_filter]

theorem whereOpt_sublist {α β : Type} (o : Option β) (p : β → α → Bool) (rows : List α) :
    List.Sublist (whereOpt o p rows) rows := by
  cases o with
  | none => exact List.Sublist.refl rows
  | some v => exact List.filter_sublist rows

theorem whereOpt_nil {α β : Type} (o : Option β) (p : β → α → Bool) :
    whereOpt o p ([] : List α) = [] := by
  cases o <;> rfl

theorem mem_geoJoin {α γ : Type} (o : Option String) (table : List γ) (gid : γ → Int)
    (gname : γ → String) (fk : NZGDRecord → Int) (nz : α → NZGDRecord)
    (rows : List α) (x : α) :
    x ∈ geoJoin o table gid gname fk nz rows ↔
      x ∈ rows ∧
        passOpt o (fun nm => table.any (fun g => gid g == fk (nz x) && gname g == nm)) =
          true := by
  cases o with
  | none => simp [geoJoin, passOpt]
  | some nm =>
    simp only [geoJoin, passOpt, List.mem_flatMap, List.mem_map, List.mem_filter,
      List.any_eq_true]
    constructor
    · rintro ⟨a, ha, g, hg, rfl⟩
      exact ⟨ha, g, hg.1, hg.2⟩
    · rintro ⟨hx, g, hg, hcond⟩
      exact ⟨x, hx, g, ⟨hg, hcond⟩, rfl⟩

theorem geoJoin_nil {α γ : Type} (o : Option String) (table : List γ) (gid : γ → Int)
    (gname : γ → String) (fk : NZGDRecord → Int) (nz : α → NZGDRecord) :
    geoJoin o table gid gname fk nz ([] : List α) = [] := by
  cases o <;> rfl

theorem flatMap_sublist_of_single {α : Type} (f : α → List α) :
    ∀ l : List α, (∀ a ∈ l, f a = [] ∨ f a = [a]) → List.Sublist (l.flatMap f) l := by
  intro l
  induction l with
  | nil => intro _; simp
  | cons a t ih =>
    intro h
    rw [List.flatMap_cons]
    rcases h a (by simp) with h0 | h1
    · rw [h0, List.nil_append]
      exact (ih (fun b hb => h b (by simp [hb]))).trans (List.sublist_cons_self a t)
    · rw [h1, List.singleton_append]
      exact (ih (fun b hb => h b (by simp [hb]))).cons₂ a

theorem filter_length_le_one_of_key {α : Type} (g : α → Int) (p : α → Bool) (v : Int)
    (himp : ∀ a, p a = true → g a = v) :
    ∀ l : List α, (l.map g).Nodup → (l.filter p).length ≤ 1 := by
  intro l
  induction l with
  | nil => intro _; simp
  | cons a t ih =>
    intro h
    rw [List.map_cons, List.nodup_cons] at h
    by_cases hpa : p a = true
    · rw [List.filter_cons_of_pos hpa]
      have ht : t.filter p = [] := by
        apply List.filter_eq_nil_iff.mpr
        intro b hb hpb
        exact h.1 (by rw [himp a hpa, ← himp b hpb]; exact List.mem_map_of_mem g hb)
      simp [ht]
    · rw [List.filter_cons_of_neg (by simpa using hpa)]
      exact ih h.2

theorem map_const_single {α γ : Type} (a : α) (l : List γ) (h : l.length ≤ 1) :
    l.map (fun _ => a) = [] ∨ l.map (fun _ => a) = [a] := by
  cases l with
  | nil => left; rfl
  | cons g gs =>
    cases gs with
    | nil => right; rfl
    | cons g2 gs2 => simp at h

theorem geoJoin_sublist {α γ : Type} (o : Option String) (table : List γ) (gid : γ → Int)
    (gname : γ → String) (fk : NZGDRecord → Int) (nz : α → NZGDRecord) (rows : List α)
    (hnd : (table.map gid).Nodup) :
    List.Sublist (geoJoin o table gid gname fk nz rows) rows := by
  cases o with
  | none => exact List.Sublist.refl rows
  | some nm =>
    apply flatMap_sublist_of_single
    intro a _
    apply map_const_single
    apply filter_length_le_one_of_key gid _ (fk (nz a)) _ table hnd
    intro g hg
    rw [Bool.and_eq_true] at hg
    exact (by simpa using hg.1)

theorem mem_uniqueKeysAux (x : Int) :
    ∀ (l seen : List Int), x ∈ uniqueKeysAux seen l ↔ x ∈ l ∧ x ∉ seen := by
  intro l
  induction l with
  | nil => intro seen; simp [uniqueKeysAux]
  | cons k ks ih =>
    intro seen
    rw [uniqueKeysAux]
    by_cases hk : k ∈ seen
    · rw [if_pos hk, ih]
      constructor
      · rintro ⟨h1, h2⟩; exact ⟨List.mem_cons_of_mem k h1, h2⟩
      · rintro ⟨h1, h2⟩
        rcases List.mem_cons.mp h1 with rfl | h1
        · exact absurd hk h2
        · exact ⟨h1, h2⟩
    · rw [if_neg hk]
      simp only [List.mem_cons, ih]
      constructor
      · rintro (rfl | ⟨h1, h2⟩)
        · exact ⟨Or.inl rfl, hk⟩
        · exact ⟨Or.inr h1, fun hc => h2 (Or.inr hc)⟩
      · rintro ⟨rfl | h1, h2⟩
        · exact Or.inl rfl
        · by_cases hxk : x = k
          · exact Or.inl hxk
          · exact Or.inr ⟨h1, by simp [hxk, h2]⟩

theorem mem_uniqueKeys (l : List Int) (x : Int) : x ∈ uniqueKeys l ↔ x ∈ l := by
  rw [uniqueKeys, mem_uniqueKeysAux]
  simp

theorem nodup_uniqueKeysAux : ∀ (l seen : List Int), (uniqueKeysAux seen l).Nodup := by
  intro l
  induction l with
  | nil => intro seen; simp [uniqueKeysAux]
  | cons k ks ih =>
    intro seen
    rw [uniqueKeysAux]
    by_cases hk : k ∈ seen
    · rw [if_pos hk]; exact ih seen
    · rw [if_neg hk]
      refine List.nodup_cons.mpr ⟨?_, ih (k :: seen)⟩
      intro hc
      exact ((mem_uniqueKeysAux k ks (k :: seen)).mp hc).2 (List.mem_cons_self k seen)

theorem nodup_uniqueKeys (l : List Int) : (uniqueKeys l).Nodup :=
  nodup_uniqueKeysAux l []

end Orm

namespace Orm

theorem havingOk_eq_true_iff (maxB minB : Option Rat) (x : Rat) :
    havingOk maxB minB x = true ↔
      (truthy maxB = true → x ≤ maxB.getD 0) ∧
        (truthy minB = true → minB.getD 0 ≤ x) := by
  unfold havingOk
  cases h1 : truthy maxB <;> cases h2 : truthy minB <;> simp

theorem mem_groupedHaving {ρ χ : Type} (keyOf : ρ → Int) (agg : χ → List χ → Rat)
    (maxB minB : Option Rat) (rows : List (ρ × χ)) (x : ρ) :
    x ∈ groupedHaving keyOf agg maxB minB rows ↔
      ∃ k m ms, rows.filter (fun t => keyOf t.1 == k) = m :: ms ∧
        havingOk maxB minB (agg m.2 (ms.map (fun t => t.2))) = true ∧ x = m.1 := by
  simp only [groupedHaving, List.mem_filterMap]
  constructor
  · rintro ⟨k, hk, hf⟩
    cases hfe : rows.filter (fun t => keyOf t.1 == k) with
    | nil => rw [hfe] at hf; simp at hf
    | cons m ms =>
      rw [hfe] at hf
      dsimp only at hf
      by_cases hok : havingOk maxB minB (agg m.2 (ms.map (fun t => t.2))) = true
      · rw [if_pos hok] at hf
        exact ⟨k, m, ms, hfe, hok, by simpa using hf.symm⟩
      · rw [if_neg hok] at hf
        cases hf
  · rintro ⟨k, m, ms, hfe, hok, rfl⟩
    refine ⟨k, ?_, ?_⟩
    · rw [mem_uniqueKeys, List.mem_map]
      have hm : m ∈ rows.filter (fun t => keyOf t.1 == k) := by
        rw [hfe]; exact List.mem_cons_self m ms
      rw [List.mem_filter] at hm
      exact ⟨m, hm.1, by simpa using hm.2⟩
    · rw [hfe]
      dsimp only
      rw [if_pos hok]

theorem filterMap_map_sublist {β2 : Type} (f : Int → Option β2) (keyOf : β2 → Int)
    (h : ∀ k x, f k = some x → keyOf x = k) :
    ∀ l : List Int, List.Sublist ((l.filterMap f).map keyOf) l := by
  intro l
  induction l with
  | nil => simp
  | cons a t ih =>
    rw [List.filterMap_cons]
    cases hfa : f a with
    | none => exact ih.trans (List.sublist_cons_self a t)
    | some b =>
      rw [List.map_cons, h a b hfa]
      exact ih.cons₂ a

theorem groupedHaving_map_key_sublist {ρ χ : Type} (keyOf : ρ → Int)
    (agg : χ → List χ → Rat) (maxB minB : Option Rat) (rows : List (ρ × χ)) :
    List.Sublist ((groupedHaving keyOf agg maxB minB rows).map keyOf)
      (uniqueKeys (rows.map (fun t => keyOf t.1))) := by
  apply filterMap_map_sublist
  intro k x hx
  cases hfe : rows.filter (fun t => keyOf t.1 == k) with
  | nil => rw [hfe] at hx; simp at hx
  | cons m ms =>
    rw [hfe] at hx
    dsimp only at hx
    by_cases hok : havingOk maxB minB (agg m.2 (ms.map (fun t => t.2))) = true
    · rw [if_pos hok] at hx
      have hm : m ∈ rows.filter (fun t => keyOf t.1 == k) := by
        rw [hfe]; exact List.mem_cons_self m ms
      rw [List.mem_filter] at hm
      have := hm.2
      simp only [beq_iff_eq] at this
      rw [← Option.some_inj.mp hx]
      exact this
    · rw [if_neg hok] at hx
      cases hx

theorem groupedHaving_keys_nodup {ρ χ : Type} (keyOf : ρ → Int)
    (agg : χ → List χ → Rat) (maxB minB : Option Rat) (rows : List (ρ × χ)) :
    ((groupedHaving keyOf agg maxB minB rows).map keyOf).Nodup :=
  (nodup_uniqueKeys _).sublist (groupedHaving_map_key_sublist keyOf agg maxB minB rows)

theorem mem_childJoin {ρ χ : Type} (keyOf : ρ → Int) (children : Int → List χ)
    (base : List ρ) (t : ρ × χ) :
    t ∈ childJoin keyOf children base ↔ t.1 ∈ base ∧ t.2 ∈ children (keyOf t.1) := by
  simp only [childJoin, List.mem_flatMap, List.mem_map]
  constructor
  · rintro ⟨rn, hrn, m, hm, rfl⟩
    exact ⟨hrn, hm⟩
  · rintro ⟨h1, h2⟩
    exact ⟨t.1, h1, t.2, h2, rfl⟩

theorem flatMap_congr_mem {α β2 : Type} (f g : α → List β2) :
    ∀ l : List α, (∀ a ∈ l, f a = g a) → l.flatMap f = l.flatMap g := by
  intro l
  induction l with
  | nil => intro _; rfl
  | cons a t ih =>
    intro h
    rw [List.flatMap_cons, List.flatMap_cons, h a (by simp),
      ih (fun b hb => h b (by simp [hb]))]

theorem flatMap_if_single {α β2 : Type} [DecidableEq α] (L : List β2) (rn : α) :
    ∀ base : List α, base.Nodup → rn ∈ base →
      base.flatMap (fun b => if b = rn then L else []) = L := by
  intro base
  induction base with
  | nil => intro _ h; cases h
  | cons a t ih =>
    intro hnd hmem
    rw [List.flatMap_cons]
    rcases List.nodup_cons.mp hnd with ⟨hat, hndt⟩
    by_cases ha : a = rn
    · subst ha
      rw [if_pos rfl]
      have ht : t.flatMap (fun b => if b = a then L else []) = [] := by
        apply List.flatMap_eq_nil_iff.mpr
        intro b hb
        rw [if_neg]
        intro hba
        exact hat (hba ▸ hb)
      rw [ht, List.append_nil]
    · rw [if_neg ha, List.nil_append]
      apply ih hndt
      rcases List.mem_cons.mp hmem with h | h
      · exact absurd h.symm ha
      · exact h

theorem filter_childJoin {ρ χ : Type} [DecidableEq ρ] (keyOf : ρ → Int)
    (children : Int → List χ) (base : List ρ) (k : Int) (rn : ρ)
    (hnd : base.Nodup) (hrn : rn ∈ base) (hkey : keyOf rn = k)
    (huniq : ∀ b ∈ base, keyOf b = k → b = rn) :
    (childJoin keyOf children base).filter (fun t => keyOf t.1 == k) =
      (children k).map (fun m => (rn, m)) := by
  rw [childJoin, List.filter_flatMap]
  rw [flatMap_congr_mem _
    (fun b => if b = rn then (children k).map (fun m => (rn, m)) else []) base ?_]
  · exact flatMap_if_single _ rn base hnd hrn
  · intro b hb
    dsimp only
    by_cases hbk : keyOf b = k
    · have hbr : b = rn := huniq b hb hbk
      subst hbr
      rw [if_pos rfl, ← hkey]
      apply List.filter_eq_self.mpr
      intro t ht
      rcases List.mem_map.mp ht with ⟨m, _, rfl⟩
      simp
    · rw [if_neg (fun hc => hbk (by rw [hc]; exact hkey))]
      apply List.filter_eq_nil_iff.mpr
      intro t ht
      rcases List.mem_map.mp ht with ⟨m, _, rfl⟩
      simpa using hbk

theorem mem_grouped_childJoin {ρ χ : Type} [DecidableEq ρ] (keyOf : ρ → Int)
    (children : Int → List χ) (agg : χ → List χ → Rat) (maxB minB : Option Rat)
    (base : List ρ) (hnd : base.Nodup)
    (hinj : ∀ b1 ∈ base, ∀ b2 ∈ base, keyOf b1 = keyOf b2 → b1 = b2) (x : ρ) :
    x ∈ groupedHaving keyOf agg maxB minB (childJoin keyOf children base) ↔
      x ∈ base ∧ ∃ c cs, children (keyOf x) = c :: cs ∧
        havingOk maxB minB (agg c cs) = true := by
  rw [mem_groupedHaving]
  constructor
  · rintro ⟨k, m, ms, hfe, hok, rfl⟩
    have hm : m ∈ (childJoin keyOf children base).filter (fun t => keyOf t.1 == k) := by
      rw [hfe]; exact List.mem_cons_self m ms
    rw [List.mem_filter, mem_childJoin] at hm
    obtain ⟨⟨hmb, _⟩, hmk⟩ := hm
    have hmk : keyOf m.1 = k := by simpa using hmk
    have huniq : ∀ b ∈ base, keyOf b = k → b = m.1 := by
      intro b hb hbk
      exact hinj b hb m.1 hmb (by rw [hbk, hmk])
    rw [filter_childJoin keyOf children base k m.1 hnd hmb hmk huniq] at hfe
    cases hcc : children k with
    | nil => rw [hcc] at hfe; cases hfe
    | cons c cs =>
      rw [hcc] at hfe
      rw [List.map_cons] at hfe
      have hhead : (m.1, c) = m := (List.cons.injEq _ _ _ _ ▸ hfe).1
      have htail : ms = cs.map (fun m2 => (m.1, m2)) := ((List.cons.injEq _ _ _ _ ▸ hfe).2).symm
      refine ⟨hmb, c, cs, by rw [hmk, hcc], ?_⟩
      have hm2 : m.2 = c := by rw [← hhead]
      rw [hm2, htail] at hok
      simpa using hok
  · rintro ⟨hxb, c, cs, hcc, hok⟩
    have huniq : ∀ b ∈ base, keyOf b = keyOf x → b = x := fun b hb hbk =>
      hinj b hb x hxb hbk
    refine ⟨keyOf x, (x, c), cs.map (fun m2 => (x, m2)), ?_, ?_, rfl⟩
    · rw [filter_childJoin keyOf children base (keyOf x) x hnd hxb rfl huniq, hcc,
        List.map_cons]
    · simpa using hok

end Orm

namespace Orm

theorem mem_sptJoinNzgd (db : Database) (p : SPTReport × NZGDRecord) :
    p ∈ sptJoinNzgd db ↔
      p.1 ∈ db.spt_reports ∧ p.2 ∈ db.nzgd_records ∧ p.2.nzgd_id = p.1.nzgd_id := by
  simp only [sptJoinNzgd, List.mem_flatMap, List.mem_map, List.mem_filter]
  constructor
  · rintro ⟨r, hr, nr, ⟨hnr, hid⟩, rfl⟩
    exact ⟨hr, hnr, by simpa using hid⟩
  · rintro ⟨h1, h2, h3⟩
    exact ⟨p.1, h1, p.2, ⟨h2, by simpa using h3⟩, Prod.mk.eta⟩

theorem sptJoinNzgd_fst_sublist (db : Database)
    (hnz : (db.nzgd_records.map (fun nr => nr.nzgd_id)).Nodup) :
    List.Sublist ((sptJoinNzgd db).map Prod.fst) db.spt_reports := by
  rw [sptJoinNzgd, List.map_flatMap]
  have hform : ∀ r ∈ db.spt_reports,
      ((db.nzgd_records.filter (fun nr => nr.nzgd_id == r.nzgd_id)).map
          (fun nr => (r, nr))).map Prod.fst = [] ∨
        ((db.nzgd_records.filter (fun nr => nr.nzgd_id == r.nzgd_id)).map
            (fun nr => (r, nr))).map Prod.fst = [r] := by
    intro r _
    rw [List.map_map]
    apply map_const_single
    apply filter_length_le_one_of_key (fun nr => nr.nzgd_id) _ r.nzgd_id _ _ hnz
    intro nr hnr
    simpa using hnr
  exact flatMap_sublist_of_single _ db.spt_reports hform

theorem mem_sptBase (db : Database) (a : SPTSearchArgs) (rn : SPTReport × NZGDRecord) :
    rn ∈ sptBase db a ↔ rn ∈ sptJoinNzgd db ∧ sptRowMatches db a rn = true := by
  simp only [sptBase, mem_geoJoin, mem_whereOpt, sptRowMatches, Bool.and_eq_true]
  tauto

theorem sptBase_sublist_join (db : Database) (a : SPTSearchArgs)
    (hreg : (db.regions.map (fun g => g.region_id)).Nodup)
    (hdis : (db.districts.map (fun g => g.district_id)).Nodup)
    (hcit : (db.cities.map (fun g => g.city_id)).Nodup)
    (hsub : (db.suburbs.map (fun g => g.suburb_id)).Nodup) :
    List.Sublist (sptBase db a) (sptJoinNzgd db) := by
  unfold sptBase
  refine (geoJoin_sublist _ _ _ _ _ _ _ hsub).trans ?_
  refine (geoJoin_sublist _ _ _ _ _ _ _ hcit).trans ?_
  refine (geoJoin_sublist _ _ _ _ _ _ _ hdis).trans ?_
  refine (geoJoin_sublist _ _ _ _ _ _ _ hreg).trans ?_
  refine (whereOpt_sublist _ _ _).trans ?_
  refine (whereOpt_sublist _ _ _).trans ?_
  refine (whereOpt_sublist _ _ _).trans ?_
  refine (whereOpt_sublist _ _ _).trans ?_
  refine (whereOpt_sublist _ _ _).trans ?_
  refine (whereOpt_sublist _ _ _).trans ?_
  exact whereOpt_sublist _ _ _

theorem sptBase_fst_sublist (db : Database) (a : SPTSearchArgs) (hwf : WellFormedDB db) :
    List.Sublist ((sptBase db a).map Prod.fst) db.spt_reports := by
  obtain ⟨_, hnz, hreg, hdis, hcit, hsub, _, _⟩ := hwf
  exact ((sptBase_sublist_join db a hreg hdis hcit hsub).map Prod.fst).trans
    (sptJoinNzgd_fst_sublist db hnz)

theorem sptBase_key_nodup (db : Database) (a : SPTSearchArgs) (hwf : WellFormedDB db) :
    ((sptBase db a).map (fun rn => rn.1.borehole_id)).Nodup := by
  have h := (sptBase_fst_sublist db a hwf).map (fun r => r.borehole_id)
  rw [List.map_map] at h
  exact hwf.1.sublist h

theorem sptBase_key_inj (db : Database) (a : SPTSearchArgs) (hwf : WellFormedDB db) :
    ∀ rn1 ∈ sptBase db a, ∀ rn2 ∈ sptBase db a,
      rn1.1.borehole_id = rn2.1.borehole_id → rn1 = rn2 := by
  intro rn1 h1 rn2 h2 heq
  exact List.inj_on_of_nodup_map (sptBase_key_nodup db a hwf) h1 h2 heq

theorem sptBase_nodup (db : Database) (a : SPTSearchArgs) (hwf : WellFormedDB db) :
    (sptBase db a).Nodup :=
  (sptBase_key_nodup db a hwf).of_map

theorem spt_search_depth_char (db : Database) (a : SPTSearchArgs) (hwf : WellFormedDB db)
    (htr : (truthy a.max_measurement_depth || truthy a.min_measurement_depth) = true)
    (r : SPTReport) :
    r ∈ search_spt_reports db a ↔
      (∃ nr, (r, nr) ∈ sptBase db a) ∧
        (∃ c cs, sptMeasurementsOf db r.borehole_id = c :: cs ∧
          havingOk a.max_measurement_depth a.min_measurement_depth
            ((cs.map (fun t => t.depth)).foldl max c.depth) = true) := by
  unfold search_spt_reports
  rw [if_pos htr]
  rw [List.mem_map]
  constructor
  · rintro ⟨rn, hrn, rfl⟩
    rw [mem_grouped_childJoin _ _ _ _ _ _ (sptBase_nodup db a hwf)
      (sptBase_key_inj db a hwf)] at hrn
    exact ⟨⟨rn.2, by simpa using hrn.1⟩, hrn.2⟩
  · rintro ⟨⟨nr, hb⟩, hdep⟩
    refine ⟨(r, nr), ?_, rfl⟩
    rw [mem_grouped_childJoin _ _ _ _ _ _ (sptBase_nodup db a hwf)
      (sptBase_key_inj db a hwf)]
    exact ⟨hb, hdep⟩

theorem spt_search_nodepth_char (db : Database) (a : SPTSearchArgs)
    (htr : (truthy a.max_measurement_depth || truthy a.min_measurement_depth) = false)
    (r : SPTReport) :
    r ∈ search_spt_reports db a ↔ ∃ nr, (r, nr) ∈ sptBase db a := by
  unfold search_spt_reports
  rw [if_neg (by simp [htr])]
  rw [List.mem_map]
  constructor
  · rintro ⟨rn, hrn, rfl⟩
    exact ⟨rn.2, by simpa using hrn⟩
  · rintro ⟨nr, hb⟩
    exact ⟨(r, nr), hb, rfl⟩

theorem exists_base_pair_iff (db : Database) (a : SPTSearchArgs) (r : SPTReport) :
    (∃ nr, (r, nr) ∈ sptBase db a) ↔
      r ∈ db.spt_reports ∧
        db.nzgd_records.any
          (fun nr => (nr.nzgd_id == r.nzgd_id) && sptRowMatches db a (r, nr)) = true := by
  constructor
  · rintro ⟨nr, hb⟩
    rw [mem_sptBase, mem_sptJoinNzgd] at hb
    refine ⟨hb.1.1, List.any_eq_true.mpr ⟨nr, hb.1.2.1, ?_⟩⟩
    rw [Bool.and_eq_true]
    exact ⟨by simpa using hb.1.2.2, hb.2⟩
  · rintro ⟨hr, hany⟩
    rcases List.any_eq_true.mp hany with ⟨nr, hnr, hcond⟩
    rw [Bool.and_eq_true] at hcond
    refine ⟨nr, ?_⟩
    rw [mem_sptBase, mem_sptJoinNzgd]
    exact ⟨⟨hr, hnr, by simpa using hcond.1⟩, hcond.2⟩

theorem depth_group_cond_iff (db : Database) (a : SPTSearchArgs) (bid : Int) :
    (∃ c cs, sptMeasurementsOf db bid = c :: cs ∧
        havingOk a.max_measurement_depth a.min_measurement_depth
          ((cs.map (fun t => t.depth)).foldl max c.depth) = true) ↔
      sptMeasurementsOf db bid ≠ [] ∧
        havingOk a.max_measurement_depth a.min_measurement_depth
          (maxList (sptDepthsOf db bid)) = true := by
  constructor
  · rintro ⟨c, cs, hcc, hok⟩
    refine ⟨by simp [hcc], ?_⟩
    have : maxList (sptDepthsOf db bid) = (cs.map (fun t => t.depth)).foldl max c.depth := by
      rw [sptDepthsOf, hcc, List.map_cons, maxList]
    rw [this]
    exact hok
  · rintro ⟨hne, hok⟩
    cases hcc : sptMeasurementsOf db bid with
    | nil => exact absurd hcc hne
    | cons c cs =>
      refine ⟨c, cs, rfl, ?_⟩
      have : maxList (sptDepthsOf db bid) = (cs.map (fun t => t.depth)).foldl max c.depth := by
        rw [sptDepthsOf, hcc, List.map_cons, maxList]
      rw [← this]
      exact hok

end Orm

namespace Orm

theorem mem_cptJoinNzgd (db : Database) (p : CPTReport × NZGDRecord) :
    p ∈ cptJoinNzgd db ↔
      p.1 ∈ db.cpt_reports ∧ p.2 ∈ db.nzgd_records ∧ p.2.nzgd_id = p.1.nzgd_id := by
  simp only [cptJoinNzgd, List.mem_flatMap, List.mem_map, List.mem_filter]
  constructor
  · rintro ⟨r, hr, nr, ⟨hnr, hid⟩, rfl⟩
    exact ⟨hr, hnr, by simpa using hid⟩
  · rintro ⟨h1, h2, h3⟩
    exact ⟨p.1, h1, p.2, ⟨h2, by simpa using h3⟩, Prod.mk.eta⟩

theorem cptJoinNzgd_fst_sublist (db : Database)
    (hnz : (db.nzgd_records.map (fun nr => nr.nzgd_id)).Nodup) :
    List.Sublist ((cptJoinNzgd db).map Prod.fst) db.cpt_reports := by
  rw [cptJoinNzgd, List.map_flatMap]
  have hform : ∀ r ∈ db.cpt_reports,
      ((db.nzgd_records.filter (fun nr => nr.nzgd_id == r.nzgd_id)).map
          (fun nr => (r, nr))).map Prod.fst = [] ∨
        ((db.nzgd_records.filter (fun nr => nr.nzgd_id == r.nzgd_id)).map
            (fun nr => (r, nr))).map Prod.fst = [r] := by
    intro r _
    rw [List.map_map]
    apply map_const_single
    apply filter_length_le_one_of_key (fun nr => nr.nzgd_id) _ r.nzgd_id _ _ hnz
    intro nr hnr
    simpa using hnr
  exact flatMap_sublist_of_single _ db.cpt_reports hform

theorem mem_cptBase (db : Database) (a : CPTSearchArgs) (rn : CPTReport × NZGDRecord) :
    rn ∈ cptBase db a ↔ rn ∈ cptJoinNzgd db ∧ cptRowMatches db a rn = true := by
  simp only [cptBase, mem_geoJoin, mem_whereOpt, cptRowMatches, Bool.and_eq_true]
  tauto

theorem cptBase_sublist_join (db : Database) (a : CPTSearchArgs)
    (hreg : (db.regions.map (fun g => g.region_id)).Nodup)
    (hdis : (db.districts.map (fun g => g.district_id)).Nodup)
    (hcit : (db.cities.map (fun g => g.city_id)).Nodup)
    (hsub : (db.suburbs.map (fun g => g.suburb_id)).Nodup) :
    List.Sublist (cptBase db a) (cptJoinNzgd db) := by
  unfold cptBase
  refine (geoJoin_sublist _ _ _ _ _ _ _ hsub).trans ?_
  refine (geoJoin_sublist _ _ _ _ _ _ _ hcit).trans ?_
  refine (geoJoin_sublist _ _ _ _ _ _ _ hdis).trans ?_
  refine (geoJoin_sublist _ _ _ _ _ _ _ hreg).trans ?_
  refine (whereOpt_sublist _ _ _).trans ?_
  refine (whereOpt_sublist _ _ _).trans ?_
  exact whereOpt_sublist _ _ _

theorem cptBase_fst_sublist (db : Database) (a : CPTSearchArgs) (hwf : WellFormedDB db) :
    List.Sublist ((cptBase db a).map Prod.fst) db.cpt_reports := by
  obtain ⟨_, hnz, hreg, hdis, hcit, hsub, _, _⟩ := hwf
  exact ((cptBase_sublist_join db a hreg hdis hcit hsub).map Prod.fst).trans
    (cptJoinNzgd_fst_sublist db hnz)

theorem cptBase_key_nodup (db : Database) (a : CPTSearchArgs) (hwf : WellFormedDB db) :
    ((cptBase db a).map (fun rn => rn.1.cpt_id)).Nodup := by
  have h := (cptBase_fst_sublist db a hwf).map (fun r => r.cpt_id)
  rw [List.map_map] at h
  exact hwf.2.2.2.2.2.2.1.sublist h

theorem cptBase_key_inj (db : Database) (a : CPTSearchArgs) (hwf : WellFormedDB db) :
    ∀ rn1 ∈ cptBase db a, ∀ rn2 ∈ cptBase db a,
      rn1.1.cpt_id = rn2.1.cpt_id → rn1 = rn2 := by
  intro rn1 h1 rn2 h2 heq
  exact List.inj_on_of_nodup_map (cptBase_key_nodup db a hwf) h1 h2 heq

theorem cptBase_nodup (db : Database) (a : CPTSearchArgs) (hwf : WellFormedDB db) :
    (cptBase db a).Nodup :=
  (cptBase_key_nodup db a hwf).of_map

theorem cpt_search_depth_char (db : Database) (a : CPTSearchArgs) (hwf : WellFormedDB db)
    (htr : (truthy a.max_measurement_depth || truthy a.min_measurement_depth) = true)
    (r : CPTReport) :
    r ∈ search_cpt_reports db a ↔
      (∃ nr, (r, nr) ∈ cptBase db a) ∧
        (∃ c cs, cptMaxDepthsOf db r.cpt_id = c :: cs ∧
          havingOk a.max_measurement_depth a.min_measurement_depth c.max_depth = true) := by
  unfold search_cpt_reports
  rw [if_pos htr]
  rw [List.mem_map]
  constructor
  · rintro ⟨rn, hrn, rfl⟩
    rw [mem_grouped_childJoin _ _ _ _ _ _ (cptBase_nodup db a hwf)
      (cptBase_key_inj db a hwf)] at hrn
    exact ⟨⟨rn.2, by simpa using hrn.1⟩, hrn.2⟩
  · rintro ⟨⟨nr, hb⟩, hdep⟩
    refine ⟨(r, nr), ?_, rfl⟩
    rw [mem_grouped_childJoin _ _ _ _ _ _ (cptBase_nodup db a hwf)
      (cptBase_key_inj db a hwf)]
    exact ⟨hb, hdep⟩

theorem cpt_scan_depth_char (db : Database) (a : CPTSearchArgs) (hwf : WellFormedDB db)
    (htr : (truthy a.max_measurement_depth || truthy a.min_measurement_depth) = true)
    (r : CPTReport) :
    r ∈ search_cpt_reports_scan db a ↔
      (∃ nr, (r, nr) ∈ cptBase db a) ∧
        (∃ c cs, cptMeasurementsOf db r.cpt_id = c :: cs ∧
          havingOk a.max_measurement_depth a.min_measurement_depth
            ((cs.map (fun t => t.depth)).foldl max c.depth) = true) := by
  unfold search_cpt_reports_scan
  rw [if_pos htr]
  rw [List.mem_map]
  constructor
  · rintro ⟨rn, hrn, rfl⟩
    rw [mem_grouped_childJoin _ _ _ _ _ _ (cptBase_nodup db a hwf)
      (cptBase_key_inj db a hwf)] at hrn
    exact ⟨⟨rn.2, by simpa using hrn.1⟩, hrn.2⟩
  · rintro ⟨⟨nr, hb⟩, hdep⟩
    refine ⟨(r, nr), ?_, rfl⟩
    rw [mem_grouped_childJoin _ _ _ _ _ _ (cptBase_nodup db a hwf)
      (cptBase_key_inj db a hwf)]
    exact ⟨hb, hdep⟩

theorem cpt_depth_group_cond_iff (db : Database) (a : CPTSearchArgs) (cid : Int) :
    (∃ c cs, cptMeasurementsOf db cid = c :: cs ∧
        havingOk a.max_measurement_depth a.min_measurement_depth
          ((cs.map (fun t => t.depth)).foldl max c.depth) = true) ↔
      cptMeasurementsOf db cid ≠ [] ∧
        havingOk a.max_measurement_depth a.min_measurement_depth
          (maxList (cptDepthsOf db cid)) = true := by
  constructor
  · rintro ⟨c, cs, hcc, hok⟩
    refine ⟨by simp [hcc], ?_⟩
    have : maxList (cptDepthsOf db cid) = (cs.map (fun t => t.depth)).foldl max c.depth := by
      rw [cptDepthsOf, hcc, List.map_cons, maxList]
    rw [this]
    exact hok
  · rintro ⟨hne, hok⟩
    cases hcc : cptMeasurementsOf db cid with
    | nil => exact absurd hcc hne
    | cons c cs =>
      refine ⟨c, cs, rfl, ?_⟩
      have : maxList (cptDepthsOf db cid) = (cs.map (fun t => t.depth)).foldl max c.depth := by
        rw [cptDepthsOf, hcc, List.map_cons, maxList]
      rw [← this]
      exact hok

theorem cpt_maxdepth_group_cond_iff (db : Database) (a : CPTSearchArgs) (cid : Int)
    (hinv : CPTMaxDepthInvariant db)
    (hex : cptMeasurementsOf db cid ≠ [] →
      ∃ md ∈ db.cpt_max_depths, md.cpt_id = cid) :
    (∃ c cs, cptMaxDepthsOf db cid = c :: cs ∧
        havingOk a.max_measurement_depth a.min_measurement_depth c.max_depth = true) ↔
      cptMeasurementsOf db cid ≠ [] ∧
        havingOk a.max_measurement_depth a.min_measurement_depth
          (maxList (cptDepthsOf db cid)) = true := by
  constructor
  · rintro ⟨c, cs, hcc, hok⟩
    have hcmem : c ∈ cptMaxDepthsOf db cid := by rw [hcc]; exact List.mem_cons_self c cs
    rw [cptMaxDepthsOf, List.mem_filter] at hcmem
    have hcid : c.cpt_id = cid := by simpa using hcmem.2
    obtain ⟨hne, hval⟩ := hinv.1 c hcmem.1
    rw [hcid] at hne hval
    exact ⟨hne, by rw [← hval]; exact hok⟩
  · rintro ⟨hne, hok⟩
    obtain ⟨md, hmdmem, hmdid⟩ := hex hne
    have hmem2 : md ∈ cptMaxDepthsOf db cid := by
      rw [cptMaxDepthsOf, List.mem_filter]
      exact ⟨hmdmem, by simpa using hmdid⟩
    cases hcc : cptMaxDepthsOf db cid with
    | nil => rw [hcc] at hmem2; cases hmem2
    | cons c cs =>
      have hcmem : c ∈ cptMaxDepthsOf db cid := by rw [hcc]; exact List.mem_cons_self c cs
      rw [cptMaxDepthsOf, List.mem_filter] at hcmem
      have hcid : c.cpt_id = cid := by simpa using hcmem.2
      obtain ⟨_, hval⟩ := hinv.1 c hcmem.1
      rw [hcid] at hval
      exact ⟨c, cs, rfl, by rw [hval]; exact hok⟩

end Orm

namespace Db

theorem except_bind_error {ε α β2 : Type} (e : ε) (f : α → Except ε β2) :
    (Except.error e >>= f) = Except.error e := rfl

theorem except_bind_ok {ε α β2 : Type} (x : α) (f : α → Except ε β2) :
    (Except.ok x >>= f) = f x := rfl

theorem except_pure {ε α : Type} (x : α) : (pure x : Except ε α) = Except.ok x := rfl

theorem soilDepthAttr_top (s : Orm.SoilMeasurements) :
    soilDepthAttr s "top_depth" = Except.ok s.top_depth := by
  simp [soilDepthAttr]

theorem soilDepthAttr_bottom (s : Orm.SoilMeasurements) :
    soilDepthAttr s "bottom_depth" = Except.error (PyError.attributeError "bottom_depth") := by
  have h : ("bottom_depth" == "top_depth") = false := by decide
  simp [soilDepthAttr, h]

theorem soilIntervalStep_eq (s : Orm.SoilMeasurements) (tree2 : List SoilInterval)
    (link : Orm.SoilMeasurementSoilType) :
    soilIntervalStep s tree2 link = Except.error (PyError.attributeError "bottom_depth") := by
  unfold soilIntervalStep
  rw [soilDepthAttr_top, except_bind_ok, soilDepthAttr_bottom, except_bind_error]

theorem soilLayerStep_ok (db : Orm.Database) (tree : List SoilInterval)
    (s : Orm.SoilMeasurements) (h : soilTypeLinksOf db s = []) :
    soilLayerStep db tree s = Except.ok tree := by
  rw [soilLayerStep, h, List.foldlM_nil, except_pure]

theorem soilLayerStep_error (db : Orm.Database) (tree : List SoilInterval)
    (s : Orm.SoilMeasurements) (h : soilTypeLinksOf db s ≠ []) :
    soilLayerStep db tree s = Except.error (PyError.attributeError "bottom_depth") := by
  rw [soilLayerStep]
  cases hl : soilTypeLinksOf db s with
  | nil => exact absurd hl h
  | cons l ls => rw [List.foldlM_cons, soilIntervalStep_eq, except_bind_error]

theorem foldl_layer_error (db : Orm.Database) :
    ∀ (layers : List Orm.SoilMeasurements) (tree : List SoilInterval),
      (∃ s ∈ layers, soilTypeLinksOf db s ≠ []) →
      layers.foldlM (soilLayerStep db) tree =
        Except.error (PyError.attributeError "bottom_depth") := by
  intro layers
  induction layers with
  | nil =>
    rintro tree ⟨s, hs, _⟩
    cases hs
  | cons s rest ih =>
    rintro tree ⟨s2, hs2, hlinks⟩
    rw [List.foldlM_cons]
    by_cases hl : soilTypeLinksOf db s = []
    · rw [soilLayerStep_ok db tree s hl, except_bind_ok]
      apply ih
      rcases List.mem_cons.mp hs2 with rfl | h
      · exact absurd hl hlinks
      · exact ⟨s2, h, hlinks⟩
    · rw [soilLayerStep_error db tree s hl, except_bind_error]

theorem foldl_layer_ok (db : Orm.Database) :
    ∀ (layers : List Orm.SoilMeasurements) (tree : List SoilInterval),
      (∀ s ∈ layers, soilTypeLinksOf db s = []) →
      layers.foldlM (soilLayerStep db) tree = Except.ok tree := by
  intro layers
  induction layers with
  | nil =>
    intro tree _
    rw [List.foldlM_nil, except_pure]
  | cons s rest ih =>
    intro tree h
    rw [List.foldlM_cons, soilLayerStep_ok db tree s (h s (by simp)), except_bind_ok]
    exact ih tree (fun s2 hs2 => h s2 (by simp [hs2]))

theorem buildSoilTree_error (db : Orm.Database) (report : Orm.SPTReport)
    (h : ∃ s ∈ soilMeasurementsOf db report, soilTypeLinksOf db s ≠ []) :
    buildSoilTree db report = Except.error (PyError.attributeError "bottom_depth") := by
  rw [buildSoilTree]
  apply foldl_layer_error
  obtain ⟨s, hs, hlinks⟩ := h
  exact ⟨s, (List.mem_insertionSort _).mpr hs, hlinks⟩

theorem buildSoilTree_ok (db : Orm.Database) (report : Orm.SPTReport)
    (h : ∀ s ∈ soilMeasurementsOf db report, soilTypeLinksOf db s = []) :
    buildSoilTree db report = Except.ok [] := by
  rw [buildSoilTree]
  apply foldl_layer_ok
  intro s hs
  exact h s ((List.mem_insertionSort _).mp hs)

theorem nzgdGeographyName_region (db : Orm.Database) (record : Orm.NZGDRecord) :
    nzgdGeographyName db record "region" = Except.error (PyError.attributeError "region") := by
  have h1 : ("region" == "region_id") = false := by decide
  have h2 : ("region" == "district_id") = false := by decide
  have h3 : ("region" == "city_id") = false := by decide
  have h4 : ("region" == "suburb_id") = false := by decide
  simp [nzgdGeographyName, h1, h2, h3, h4]

theorem nzgd_from_orm_error (db : Orm.Database) (record : Orm.NZGDRecord) :
    NZGDRecord.from_orm db record = Except.error (PyError.attributeError "region") := by
  unfold NZGDRecord.from_orm
  rw [nzgdGeographyName_region, except_bind_error]

theorem spt_from_orm_bottom_error (db : Orm.Database) (report : Orm.SPTReport)
    (h : ∃ s ∈ soilMeasurementsOf db report, soilTypeLinksOf db s ≠ []) :
    SPTReport.from_orm db report = Except.error (PyError.attributeError "bottom_depth") := by
  unfold SPTReport.from_orm
  rw [buildSoilTree_error db report h, except_bind_error]

theorem spt_from_orm_region_error (db : Orm.Database) (report : Orm.SPTReport)
    (hsoil : ∀ s ∈ soilMeasurementsOf db report, soilTypeLinksOf db s = [])
    (hnz : ∃ nr ∈ db.nzgd_records, nr.nzgd_id = report.nzgd_id) :
    SPTReport.from_orm db report = Except.error (PyError.attributeError "region") := by
  unfold SPTReport.from_orm
  rw [buildSoilTree_ok db report hsoil, except_bind_ok]
  cases hfind : db.nzgd_records.find? (fun nr => nr.nzgd_id == report.nzgd_id) with
  | none =>
    exfalso
    obtain ⟨nr, hmem, hid⟩ := hnz
    have hnot := List.find?_eq_none.mp hfind nr hmem
    exact hnot (by simp [hid])
  | some parent =>
    rw [fkLookup, hfind]
    dsimp only
    rw [except_bind_ok, nzgd_from_orm_error, except_bind_error]

end Db

namespace Db

theorem pairwise_depth_insertionSort {α : Type} (dep : α → Rat) (l : List α) :
    (l.insertionSort (fun a b => dep a ≤ dep b)).Pairwise (fun a b => dep a ≤ dep b) := by
  haveI htot : IsTotal α (fun a b => dep a ≤ dep b) := ⟨fun a b => le_total (dep a) (dep b)⟩
  haveI htr : IsTrans α (fun a b => dep a ≤ dep b) := ⟨fun a b c h1 h2 => le_trans h1 h2⟩
  exact List.sorted_insertionSort _ l

theorem filter_depth_insertionSort {α : Type} (dep : α → Rat) (l : List α) (d : Rat) :
    (l.insertionSort (fun a b => dep a ≤ dep b)).filter (fun a => dep a == d) =
      l.filter (fun a => dep a == d) := by
  haveI htot : IsTotal α (fun a b => dep a ≤ dep b) := ⟨fun a b => le_total (dep a) (dep b)⟩
  haveI htr : IsTrans α (fun a b => dep a ≤ dep b) := ⟨fun a b c h1 h2 => le_trans h1 h2⟩
  have hall : ∀ a ∈ l.filter (fun a => dep a == d), (dep a == d) = true :=
    fun a ha => (List.mem_filter.mp ha).2
  have hsc : (l.filter (fun a => dep a == d)).Pairwise (fun a b => dep a ≤ dep b) := by
    apply List.pairwise_of_forall_mem_list
    intro a ha b hb
    have hda : dep a = d := by simpa using hall a ha
    have hdb : dep b = d := by simpa using (List.mem_filter.mp hb).2
    rw [hda, hdb]
  have hsub : List.Sublist (l.filter (fun a => dep a == d))
      (l.insertionSort (fun a b => dep a ≤ dep b)) :=
    List.sublist_insertionSort hsc (List.filter_sublist l)
  have hsub2 : List.Sublist (l.filter (fun a => dep a == d))
      ((l.insertionSort (fun a b => dep a ≤ dep b)).filter (fun a => dep a == d)) := by
    have h2 := hsub.filter (fun a => dep a == d)
    rwa [List.filter_eq_self.mpr hall] at h2
  have hperm : List.Perm
      ((l.insertionSort (fun a b => dep a ≤ dep b)).filter (fun a => dep a == d))
      (l.filter (fun a => dep a == d)) :=
    (List.perm_insertionSort (fun a b => dep a ≤ dep b) l).filter _
  exact (hsub2.eq_of_length hperm.length_eq.symm).symm

end Db

/-- C1: for every database state and every combination of filter arguments,
the facade `db.search_spt_reports` raises `TypeError` before any query is
built or executed, because it always forwards the keyword argument
`region_name` to `orm.search_spt_reports`, whose corresponding parameter is
named `region`. -/
theorem C1_facade_always_type_error (db : Orm.Database) (a : Db.FacadeSPTArgs) :
    Db.search_spt_reports db a = Except.error PyError.typeError := by
  have hc : Db.facadeForwardedKeywords.all
      (fun k => Db.ormSearchSptParamNames.contains k) = false := by decide
  unfold Db.search_spt_reports
  rw [hc]
  rfl

/-- C2: on the spec's example — a report with soil layers [(0,2,{SAND}),
(2,5,{CLAY,SILT})] — `SPTReport.from_orm` does not build an interval index with
one entry per (layer, label) pair: it raises `AttributeError` on the
unpersisted `bottom_depth` column before any interval is added (and, the
`soil_type` loop variable being unused, equal duplicate intervals would be
deduplicated by the interval-tree set even if `bottom_depth` existed). -/
theorem C2_interval_index_assembly_fails :
    Db.SPTReport.from_orm dbSoil exSpt =
      Except.error (PyError.attributeError "bottom_depth") := by
  decide

/-- C3: the persisted soil-layer schema declares only `top_depth`, the
assembler reads `bottom_depth`, and consequently assembling any SPT report
with at least one associated soil layer fails with an attribute-access error
rather than producing an assembled record; when some layer carries at least
one soil-type label the failing attribute is precisely `bottom_depth`. -/
theorem C3_soil_layer_assembly_fails (db : Orm.Database) (report : Orm.SPTReport)
    (hfk : ∃ nr ∈ db.nzgd_records, nr.nzgd_id = report.nzgd_id)
    (_hlayers : Db.soilMeasurementsOf db report ≠ []) :
    (∃ attr, Db.SPTReport.from_orm db report =
        Except.error (PyError.attributeError attr)) ∧
      ∀ s ∈ Db.soilMeasurementsOf db report, Db.soilTypeLinksOf db s ≠ [] →
        Db.SPTReport.from_orm db report =
          Except.error (PyError.attributeError "bottom_depth") := by
  constructor
  · by_cases hlab : ∃ s ∈ Db.soilMeasurementsOf db report, Db.soilTypeLinksOf db s ≠ []
    · exact ⟨"bottom_depth", Db.spt_from_orm_bottom_error db report hlab⟩
    · push_neg at hlab
      exact ⟨"region", Db.spt_from_orm_region_error db report hlab hfk⟩
  · intro s hs hlinks
    exact Db.spt_from_orm_bottom_error db report ⟨s, hs, hlinks⟩

/-- Witness for C3 at the concrete soil-layer store. -/
theorem C3_witness :
    (∃ attr, Db.SPTReport.from_orm dbSoil exSpt =
        Except.error (PyError.attributeError attr)) ∧
      ∀ s ∈ Db.soilMeasurementsOf dbSoil exSpt, Db.soilTypeLinksOf dbSoil s ≠ [] →
        Db.SPTReport.from_orm dbSoil exSpt =
          Except.error (PyError.attributeError "bottom_depth") :=
  C3_soil_layer_assembly_fails dbSoil exSpt (by decide) (by decide)

/-- C8: assembling an investigation record does not fail only on orphaned
geography ids — it fails with `AttributeError` on every input, because the
source reads `record.region` (and `.district`, `.city`, `.suburb`) while
peewee exposes the related objects under the field names `region_id` etc.; the
`backref` strings install reverse accessors on the geography models, not on
`NZGDRecord`.  In particular assembly fails even on `exNzgd`, whose four
geography ids all have matching lookup rows in `dbA`, so the failure is not
the claimed not-found error on orphaned references. -/
theorem C8_investigation_assembly_always_attribute_error :
    (∀ (db : Orm.Database) (record : Orm.NZGDRecord),
        Db.NZGDRecord.from_orm db record =
          Except.error (PyError.attributeError "region")) ∧
      (∃ g ∈ dbA.regions, g.region_id = exNzgd.region_id) ∧
      (∃ g ∈ dbA.districts, g.district_id = exNzgd.district_id) ∧
      (∃ g ∈ dbA.cities, g.city_id = exNzgd.city_id) ∧
      (∃ g ∈ dbA.suburbs, g.suburb_id = exNzgd.suburb_id) ∧
      Db.NZGDRecord.from_orm dbA exNzgd =
        Except.error (PyError.attributeError "region") :=
  ⟨fun db record => Db.nzgd_from_orm_error db record,
    by decide, by decide, by decide, by decide, by decide⟩

/-- C7: every assembled measurement series (SPT, CPT and velocity-profile
alike) has a non-decreasing depth column — adjacent rows satisfy
depth[i] ≤ depth[i+1] — and rows of equal depth keep their input order: for
every depth value, the rows of the assembled series at that depth are exactly
the input rows at that depth, in input order. -/
theorem C7_assembled_series_depth_sorted_stable (db : Orm.Database)
    (spt_rows : List Orm.SPTMeasurements) (cr : Orm.CPTReport)
    (vp : Orm.VelocityProfiles) :
    (List.Chain' (fun p q => p.depth ≤ q.depth) (Db.sptMeasurementsTable spt_rows) ∧
      ∀ d, (Db.sptMeasurementsTable spt_rows).filter (fun p => p.depth == d) =
        (spt_rows.filter (fun m => m.depth == d)).map
          (fun m => { depth := m.depth, n_value := m.n })) ∧
    (List.Chain' (fun p q => p.depth ≤ q.depth) (Db.CPTReport.from_orm db cr).measurements ∧
      ∀ d, (Db.CPTReport.from_orm db cr).measurements.filter (fun p => p.depth == d) =
        ((Orm.cptMeasurementsOf db cr.cpt_id).filter (fun m => m.depth == d)).map
          (fun m => { depth := m.depth, qc := m.qc, fs := m.fs, u2 := m.u2 })) ∧
    (List.Chain' (fun p q => p.depth ≤ q.depth)
        (Db.VelocityProfile.from_orm db vp).vs_measurements ∧
      ∀ d, (Db.VelocityProfile.from_orm db vp).vs_measurements.filter
          (fun p => p.depth == d) =
        ((Db.vsMeasurementsOf db vp.profile_id).filter (fun m => m.depth == d)).map
          (fun m => { depth := m.depth, vs := m.vs })) := by
  refine ⟨⟨?_, ?_⟩, ⟨?_, ?_⟩, ⟨?_, ?_⟩⟩
  · rw [Db.sptMeasurementsTable]
    apply List.Pairwise.chain'
    rw [List.pairwise_map]
    exact Db.pairwise_depth_insertionSort (fun m => m.depth) spt_rows
  · intro d
    rw [Db.sptMeasurementsTable, List.filter_map]
    have hc : ((fun p : Db.SPTPoint => p.depth == d) ∘
        (fun m : Orm.SPTMeasurements => ({ depth := m.depth, n_value := m.n } : Db.SPTPoint))) =
        fun m : Orm.SPTMeasurements => m.depth == d := rfl
    rw [hc, Db.filter_depth_insertionSort]
  · show List.Chain' _ (Db.cptMeasurementsTable (Orm.cptMeasurementsOf db cr.cpt_id))
    rw [Db.cptMeasurementsTable]
    apply List.Pairwise.chain'
    rw [List.pairwise_map]
    exact Db.pairwise_depth_insertionSort (fun m : Orm.CPTMeasurements => m.depth) _
  · intro d
    show (Db.cptMeasurementsTable (Orm.cptMeasurementsOf db cr.cpt_id)).filter _ = _
    rw [Db.cptMeasurementsTable, List.filter_map]
    have hc : ((fun p : Db.CPTPoint => p.depth == d) ∘
        (fun m : Orm.CPTMeasurements =>
          ({ depth := m.depth, qc := m.qc, fs := m.fs, u2 := m.u2 } : Db.CPTPoint))) =
        fun m : Orm.CPTMeasurements => m.depth == d := rfl
    rw [hc, Db.filter_depth_insertionSort]
  · show List.Chain' _ (Db.vsMeasurementsTable (Db.vsMeasurementsOf db vp.profile_id))
    rw [Db.vsMeasurementsTable]
    apply List.Pairwise.chain'
    rw [List.pairwise_map]
    exact Db.pairwise_depth_insertionSort (fun m : Orm.VsMeasurements => m.depth) _
  · intro d
    show (Db.vsMeasurementsTable (Db.vsMeasurementsOf db vp.profile_id)).filter _ = _
    rw [Db.vsMeasurementsTable, List.filter_map]
    have hc : ((fun p : Db.VsPoint => p.depth == d) ∘
        (fun m : Orm.VsMeasurements => ({ depth := m.depth, vs := m.vs } : Db.VsPoint))) =
        fun m : Orm.VsMeasurements => m.depth == d := rfl
    rw [hc, Db.filter_depth_insertionSort]

namespace Orm

theorem search_spt_ids_nodup (db : Database) (a : SPTSearchArgs) (hwf : WellFormedDB db) :
    ((search_spt_reports db a).map (fun r => r.borehole_id)).Nodup := by
  unfold search_spt_reports
  by_cases htr : (truthy a.max_measurement_depth || truthy a.min_measurement_depth) = true
  · rw [if_pos htr, List.map_map]
    exact groupedHaving_keys_nodup
      (fun rn : SPTReport × NZGDRecord => rn.1.borehole_id) _ _ _ _
  · rw [if_neg htr, List.map_map]
    exact sptBase_key_nodup db a hwf

theorem search_spt_mem_iff (db : Database) (a : SPTSearchArgs) (hwf : WellFormedDB db)
    (r : SPTReport) :
    r ∈ search_spt_reports db a ↔ r ∈ db.spt_reports ∧ sptMatches db a r = true := by
  by_cases htr : (truthy a.max_measurement_depth || truthy a.min_measurement_depth) = true
  · rw [spt_search_depth_char db a hwf htr r, depth_group_cond_iff, exists_base_pair_iff]
    unfold sptMatches sptDepthFilterOk
    rw [if_pos htr, Bool.and_eq_true, Bool.and_eq_true]
    constructor
    · rintro ⟨⟨h1, h2⟩, h3, h4⟩
      exact ⟨h1, h2, by simpa [List.isEmpty_iff] using h3, h4⟩
    · rintro ⟨h1, h2, h3, h4⟩
      exact ⟨⟨h1, h2⟩, by simpa [List.isEmpty_iff] using h3, h4⟩
  · have htr2 : (truthy a.max_measurement_depth || truthy a.min_measurement_depth) = false := by
      simpa using htr
    rw [spt_search_nodepth_char db a htr2 r, exists_base_pair_iff]
    unfold sptMatches sptDepthFilterOk
    rw [if_neg htr, Bool.and_eq_true]
    simp

theorem search_spt_empty_of_base_nil (db : Database) (a : SPTSearchArgs)
    (hb : sptBase db a = []) : search_spt_reports db a = [] := by
  unfold search_spt_reports
  rw [hb]
  by_cases htr : (truthy a.max_measurement_depth || truthy a.min_measurement_depth) = true
  · rw [if_pos htr]; rfl
  · rw [if_neg htr]; rfl

theorem whereOpt_range_nil {α : Type} (f : α → Rat) (v w : Rat) (hlt : w < v)
    (rows : List α) :
    whereOpt (some w) (fun b rn => decide (f rn ≤ b))
      (whereOpt (some v) (fun b rn => decide (b ≤ f rn)) rows) = [] := by
  show List.filter _ (List.filter _ _) = []
  rw [List.filter_filter]
  apply List.filter_eq_nil_iff.mpr
  intro rn _
  rw [Bool.and_eq_true, decide_eq_true_eq, decide_eq_true_eq]
  rintro ⟨h1, h2⟩
  exact absurd (le_trans h2 h1) (not_le.mpr hlt)

theorem sptBase_nil_of_unsat_eff (db : Database) (a : SPTSearchArgs) (v w : Rat)
    (hv : a.min_efficiency = some v) (hw : a.max_efficiency = some w) (hlt : w < v) :
    sptBase db a = [] := by
  unfold sptBase
  rw [hv, hw, whereOpt_range_nil (fun rn : SPTReport × NZGDRecord => rn.1.efficiency) v w hlt]
  simp [whereOpt_nil, geoJoin_nil]

theorem sptBase_nil_of_unsat_diam (db : Database) (a : SPTSearchArgs) (v w : Rat)
    (hv : a.min_diameter = some v) (hw : a.max_diameter = some w) (hlt : w < v) :
    sptBase db a = [] := by
  unfold sptBase
  rw [hv, hw, whereOpt_range_nil (fun rn : SPTReport × NZGDRecord => rn.1.borehole_diameter) v w hlt]
  simp [whereOpt_nil, geoJoin_nil]

end Orm

/-- C5 counterexample: the claim fails as stated — with the supplied upper
measurement-depth bound 0.0 the built query neither joins the measurement
table nor applies `HAVING MAX(depth) <= 0`; the stored report, whose maximum
measurement depth is 3, is returned although 3 ≤ 0 fails. -/
theorem C5_counterexample :
    Orm.search_spt_reports dbA { sptNoArgs with max_measurement_depth := some 0 } =
        [exSpt] ∧
      Orm.maxList (Orm.sptDepthsOf dbA exSpt.borehole_id) = 3 ∧ ¬ ((3 : Rat) ≤ 0) :=
  ⟨by decide, by decide, by decide⟩

/-- C5 (amended): a supplied measurement-depth bound takes part in the query
only when it is truthy (nonzero — Python truthiness); when at least one bound
is truthy the query inner-joins the measurement child table (so a returned
report has at least one measurement row), groups by report id (one row per
distinct id), and filters groups with `HAVING MAX(depth) <= upper` for a
truthy upper bound and `HAVING MAX(depth) >= lower` for a truthy lower bound,
the two conditions combining with logical AND when both are truthy. -/
theorem C5_depth_stage_characterization (db : Orm.Database) (a : Orm.SPTSearchArgs)
    (hwf : Orm.WellFormedDB db)
    (htr : (Orm.truthy a.max_measurement_depth ||
      Orm.truthy a.min_measurement_depth) = true) :
    ((Orm.search_spt_reports db a).map (fun r => r.borehole_id)).Nodup ∧
      ∀ r, r ∈ Orm.search_spt_reports db a ↔
        (∃ nr, (r, nr) ∈ Orm.sptBase db a) ∧
          Orm.sptMeasurementsOf db r.borehole_id ≠ [] ∧
          (Orm.truthy a.max_measurement_depth = true →
            Orm.maxList (Orm.sptDepthsOf db r.borehole_id) ≤
              a.max_measurement_depth.getD 0) ∧
          (Orm.truthy a.min_measurement_depth = true →
            a.min_measurement_depth.getD 0 ≤
              Orm.maxList (Orm.sptDepthsOf db r.borehole_id)) := by
  refine ⟨Orm.search_spt_ids_nodup db a hwf, ?_⟩
  intro r
  rw [Orm.spt_search_depth_char db a hwf htr r, Orm.depth_group_cond_iff,
    Orm.havingOk_eq_true_iff]

/-- Witness for C5 at a concrete store and a truthy lower bound. -/
theorem C5_witness :
    ((Orm.search_spt_reports dbA
        { sptNoArgs with min_measurement_depth := some 1 }).map
      (fun r => r.borehole_id)).Nodup :=
  (C5_depth_stage_characterization dbA
    { sptNoArgs with min_measurement_depth := some 1 }
    (by unfold Orm.WellFormedDB; decide) (by decide)).1

/-- C6: under primary-key uniqueness the search returns one row per distinct
report id with no duplicates — even when a report has several measurement rows
matching a depth filter, the `GROUP BY` collapses the join fan-out — and a
stored report is returned exactly when it satisfies the declarative criteria
predicate `sptMatches`. -/
theorem C6_search_exact_no_duplicates (db : Orm.Database) (a : Orm.SPTSearchArgs)
    (hwf : Orm.WellFormedDB db) :
    ((Orm.search_spt_reports db a).map (fun r => r.borehole_id)).Nodup ∧
      ∀ r, r ∈ Orm.search_spt_reports db a ↔
        r ∈ db.spt_reports ∧ Orm.sptMatches db a r = true :=
  ⟨Orm.search_spt_ids_nodup db a hwf, fun r => Orm.search_spt_mem_iff db a hwf r⟩

/-- Witness for C6: the stored report with two measurement rows of depths 2
and 3 is returned exactly once by a depth-filtered search. -/
theorem C6_witness :
    exSpt ∈ Orm.search_spt_reports dbA
      { sptNoArgs with min_measurement_depth := some 1 } :=
  ((C6_search_exact_no_duplicates dbA
    { sptNoArgs with min_measurement_depth := some 1 }
    (by unfold Orm.WellFormedDB; decide)).2 exSpt).mpr (by decide)

/-- C9 counterexample: the claim fails as stated — with the supplied
measurement-depth range min 1 > max 0 the search does not return an empty
result set: the zero upper bound is falsy and ignored, so the stored report
(maximum depth 3 ≥ 1) is returned. -/
theorem C9_counterexample :
    ((0 : Rat) < 1) ∧
      Orm.search_spt_reports dbA
        { sptNoArgs with max_measurement_depth := some 0, min_measurement_depth := some 1 } =
        [exSpt] :=
  ⟨by decide, by decide⟩

/-- C9 (amended): the search neither validates nor rejects an unsatisfiable
range: for a supplied efficiency range with min > max, a supplied diameter
range with min > max, or a measurement-depth range whose two bounds are both
truthy (nonzero) with max < min, the query composes literally and
deterministically returns the empty result set; a supplied but zero depth
bound, however, is ignored (Python truthiness), so min > max = 0.0 does not
force emptiness. -/
theorem C9_unsat_range_returns_empty (db : Orm.Database) (a : Orm.SPTSearchArgs)
    (h : (∃ v w, a.min_efficiency = some v ∧ a.max_efficiency = some w ∧ w < v) ∨
      (∃ v w, a.min_diameter = some v ∧ a.max_diameter = some w ∧ w < v) ∨
      (Orm.truthy a.max_measurement_depth = true ∧
        Orm.truthy a.min_measurement_depth = true ∧
        a.max_measurement_depth.getD 0 < a.min_measurement_depth.getD 0)) :
    Orm.search_spt_reports db a = [] := by
  rcases h with ⟨v, w, hv, hw, hlt⟩ | ⟨v, w, hv, hw, hlt⟩ | ⟨ht1, ht2, hlt⟩
  · exact Orm.search_spt_empty_of_base_nil db a
      (Orm.sptBase_nil_of_unsat_eff db a v w hv hw hlt)
  · exact Orm.search_spt_empty_of_base_nil db a
      (Orm.sptBase_nil_of_unsat_diam db a v w hv hw hlt)
  · have hokf : ∀ x : Rat,
        Orm.havingOk a.max_measurement_depth a.min_measurement_depth x = false := by
      intro x
      unfold Orm.havingOk
      rw [ht1, ht2]
      simp only [Bool.not_true, Bool.false_or]
      by_cases h1 : x ≤ a.max_measurement_depth.getD 0
      · by_cases h2 : a.min_measurement_depth.getD 0 ≤ x
        · exact absurd (le_trans h2 h1) (not_le.mpr hlt)
        · simp [h2]
      · simp [h1]
    unfold Orm.search_spt_reports
    rw [if_pos (by rw [ht1]; rfl)]
    have hg : Orm.groupedHaving (fun rn : Orm.SPTReport × Orm.NZGDRecord => rn.1.borehole_id)
        (fun m ms => (ms.map (fun t => t.depth)).foldl max m.depth)
        a.max_measurement_depth a.min_measurement_depth
        (Orm.childJoin (fun rn => rn.1.borehole_id)
          (fun k => Orm.sptMeasurementsOf db k) (Orm.sptBase db a)) = [] := by
      unfold Orm.groupedHaving
      apply List.filterMap_eq_nil_iff.mpr
      intro k _
      dsimp only
      cases hfe : List.filter (fun t => t.1.1.borehole_id == k)
          (Orm.childJoin (fun rn : Orm.SPTReport × Orm.NZGDRecord => rn.1.borehole_id)
            (fun k2 => Orm.sptMeasurementsOf db k2) (Orm.sptBase db a)) with
      | nil => rfl
      | cons m ms =>
        dsimp only
        rw [if_neg (by simp [hokf])]
    rw [hg]
    rfl

/-- Witness for C9 at a concrete store: efficiency range 80..70 is
unsatisfiable and the search returns no rows. -/
theorem C9_witness :
    Orm.search_spt_reports dbA
      { sptNoArgs with min_efficiency := some 80, max_efficiency := some 70 } = [] :=
  C9_unsat_range_returns_empty dbA
    { sptNoArgs with min_efficiency := some 80, max_efficiency := some 70 }
    (Or.inl ⟨80, 70, by decide, by decide, by decide⟩)

/-- C4 counterexample: the claim fails as stated — the original_reference
filter "abc" returns the stored report although "abc" is not a case-sensitive
substring of its reference "ABC" (SQLite LIKE folds ASCII case). -/
theorem C4_counterexample :
    Orm.search_spt_reports dbA { sptNoArgs with original_reference := some "abc" } =
        [exSpt] ∧
      ∀ nr ∈ dbA.nzgd_records, nr.nzgd_id = exSpt.nzgd_id →
        ¬ List.IsInfix "abc".data nr.original_reference.data :=
  ⟨by decide, by decide⟩

/-- C4 (amended): every report row the constructed query returns satisfies
every supplied predicate, with two qualifications forced by the code: the
original_reference filter is SQLite-LIKE containment, which is
ASCII-case-insensitive rather than case-sensitive, and a measurement-depth
bound is enforced (inclusively, against the report's maximum measurement
depth) only when truthy, a 0.0 bound being ignored.  Efficiency and diameter
range bounds are inclusive on both ends; id and geography-name filters are
exact equality. -/
theorem C4_search_soundness (db : Orm.Database) (a : Orm.SPTSearchArgs)
    (hwf : Orm.WellFormedDB db) (r : Orm.SPTReport)
    (hr : r ∈ Orm.search_spt_reports db a) :
    (∀ v, a.borehole_id = some v → r.borehole_id = v) ∧
    (∀ v, a.min_efficiency = some v → v ≤ r.efficiency) ∧
    (∀ v, a.max_efficiency = some v → r.efficiency ≤ v) ∧
    (∀ v, a.min_diameter = some v → v ≤ r.borehole_diameter) ∧
    (∀ v, a.max_diameter = some v → r.borehole_diameter ≤ v) ∧
    (∀ v, a.nzgd_id = some v → r.nzgd_id = v) ∧
    (∃ nr ∈ db.nzgd_records, nr.nzgd_id = r.nzgd_id ∧
      (∀ s, a.original_reference = some s →
        Orm.contains nr.original_reference s = true) ∧
      (∀ nm, a.region = some nm →
        ∃ g ∈ db.regions, g.region_id = nr.region_id ∧ g.name = nm) ∧
      (∀ nm, a.district = some nm →
        ∃ g ∈ db.districts, g.district_id = nr.district_id ∧ g.name = nm) ∧
      (∀ nm, a.city = some nm →
        ∃ g ∈ db.cities, g.city_id = nr.city_id ∧ g.name = nm) ∧
      (∀ nm, a.suburb = some nm →
        ∃ g ∈ db.suburbs, g.suburb_id = nr.suburb_id ∧ g.name = nm)) ∧
    (Orm.truthy a.max_measurement_depth = true →
      Orm.sptMeasurementsOf db r.borehole_id ≠ [] ∧
        Orm.maxList (Orm.sptDepthsOf db r.borehole_id) ≤
          a.max_measurement_depth.getD 0) ∧
    (Orm.truthy a.min_measurement_depth = true →
      Orm.sptMeasurementsOf db r.borehole_id ≠ [] ∧
        a.min_measurement_depth.getD 0 ≤
          Orm.maxList (Orm.sptDepthsOf db r.borehole_id)) := by
  have hmain : (∃ nr, (r, nr) ∈ Orm.sptBase db a) ∧
      (Orm.truthy a.max_measurement_depth = true →
        Orm.sptMeasurementsOf db r.borehole_id ≠ [] ∧
          Orm.maxList (Orm.sptDepthsOf db r.borehole_id) ≤
            a.max_measurement_depth.getD 0) ∧
      (Orm.truthy a.min_measurement_depth = true →
        Orm.sptMeasurementsOf db r.borehole_id ≠ [] ∧
          a.min_measurement_depth.getD 0 ≤
            Orm.maxList (Orm.sptDepthsOf db r.borehole_id)) := by
    by_cases htr : (Orm.truthy a.max_measurement_depth ||
        Orm.truthy a.min_measurement_depth) = true
    · rw [Orm.spt_search_depth_char db a hwf htr r, Orm.depth_group_cond_iff,
        Orm.havingOk_eq_true_iff] at hr
      obtain ⟨hp, hne, hmax, hmin⟩ := hr
      exact ⟨hp, fun ht => ⟨hne, hmax ht⟩, fun ht => ⟨hne, hmin ht⟩⟩
    · have htr2 : (Orm.truthy a.max_measurement_depth ||
          Orm.truthy a.min_measurement_depth) = false := by simpa using htr
      rw [Orm.spt_search_nodepth_char db a htr2 r] at hr
      have hff := Bool.or_eq_false_iff.mp htr2
      exact ⟨hr, fun ht => absurd ht (by simp [hff.1]),
        fun ht => absurd ht (by simp [hff.2])⟩
  obtain ⟨⟨nr, hb⟩, hdmax, hdmin⟩ := hmain
  rw [Orm.mem_sptBase, Orm.mem_sptJoinNzgd] at hb
  obtain ⟨⟨hrs, hnrs, hid⟩, hmatch⟩ := hb
  simp only [Orm.sptRowMatches, Bool.and_eq_true] at hmatch
  obtain ⟨⟨⟨⟨⟨⟨⟨⟨⟨⟨hbid, hmineff⟩, hmaxeff⟩, hmindi⟩, hmaxdi⟩, hnzf⟩,
    href⟩, hreg⟩, hdis⟩, hcit⟩, hsub⟩ := hmatch
  have hid2 : nr.nzgd_id = r.nzgd_id := by simpa using hid
  refine ⟨?_, ?_, ?_, ?_, ?_, ?_, ?_, hdmax, hdmin⟩
  · intro v hv
    have := (Orm.passOpt_eq_true_iff _ _).mp hbid v hv
    simpa using this
  · intro v hv
    have := (Orm.passOpt_eq_true_iff _ _).mp hmineff v hv
    simpa using this
  · intro v hv
    have := (Orm.passOpt_eq_true_iff _ _).mp hmaxeff v hv
    simpa using this
  · intro v hv
    have := (Orm.passOpt_eq_true_iff _ _).mp hmindi v hv
    simpa using this
  · intro v hv
    have := (Orm.passOpt_eq_true_iff _ _).mp hmaxdi v hv
    simpa using this
  · intro v hv
    have := (Orm.passOpt_eq_true_iff _ _).mp hnzf v hv
    rw [← hid2]
    simpa using this
  · refine ⟨nr, hnrs, hid2, ?_, ?_, ?_, ?_, ?_⟩
    · intro s hs
      have := (Orm.passOpt_eq_true_iff _ _).mp href s hs
      simpa using this
    · intro nm hnm
      have hany := (Orm.passOpt_eq_true_iff _ _).mp hreg nm hnm
      simpa using hany
    · intro nm hnm
      have hany := (Orm.passOpt_eq_true_iff _ _).mp hdis nm hnm
      simpa using hany
    · intro nm hnm
      have hany := (Orm.passOpt_eq_true_iff _ _).mp hcit nm hnm
      simpa using hany
    · intro nm hnm
      have hany := (Orm.passOpt_eq_true_iff _ _).mp hsub nm hnm
      simpa using hany

/-- Witness for C4: the returned report respects the inclusive lower
efficiency bound 60. -/
theorem C4_witness : (60 : Rat) ≤ exSpt.efficiency :=
  (C4_search_soundness dbA { sptNoArgs with min_efficiency := some 60 }
      (by unfold Orm.WellFormedDB; decide) exSpt (by decide)).2.1 60 rfl

/-- C10: under primary-key uniqueness and the invariant that each cone
report's stored max_depth is the maximum depth of its nonempty measurement
series, the CPT query's depth-range filtering through the precomputed
max-depth table selects exactly the same set of report ids as the SPT-style
scan-based aggregate (GROUP BY report id, HAVING MAX(depth) bounds) over the
cone measurements. -/
theorem C10_cpt_maxdepth_equals_scan (db : Orm.Database) (a : Orm.CPTSearchArgs)
    (hwf : Orm.WellFormedDB db) (hinv : Orm.CPTMaxDepthInvariant db) :
    ∀ i : Int, i ∈ (Orm.search_cpt_reports db a).map (fun r => r.cpt_id) ↔
      i ∈ (Orm.search_cpt_reports_scan db a).map (fun r => r.cpt_id) := by
  have hrep : ∀ r, r ∈ Orm.search_cpt_reports db a ↔
      r ∈ Orm.search_cpt_reports_scan db a := by
    intro r
    by_cases htr : (Orm.truthy a.max_measurement_depth ||
        Orm.truthy a.min_measurement_depth) = true
    · rw [Orm.cpt_search_depth_char db a hwf htr r,
        Orm.cpt_scan_depth_char db a hwf htr r]
      apply and_congr_right
      intro hpair
      obtain ⟨nr, hb⟩ := hpair
      rw [Orm.mem_cptBase, Orm.mem_cptJoinNzgd] at hb
      have hrmem : r ∈ db.cpt_reports := hb.1.1
      rw [Orm.cpt_maxdepth_group_cond_iff db a r.cpt_id hinv
        (fun hne => hinv.2 r hrmem hne), Orm.cpt_depth_group_cond_iff]
    · unfold Orm.search_cpt_reports Orm.search_cpt_reports_scan
      rw [if_neg htr, if_neg htr]
  intro i
  simp only [List.mem_map]
  constructor
  · rintro ⟨r, hrm, rfl⟩
    exact ⟨r, (hrep r).mp hrm, rfl⟩
  · rintro ⟨r, hrm, rfl⟩
    exact ⟨r, (hrep r).mpr hrm, rfl⟩

/-- Witness for C10 at a concrete store with the summary-table invariant. -/
theorem C10_witness :
    (1 : Int) ∈ (Orm.search_cpt_reports dbA
      { cptNoArgs with max_measurement_depth := some 8 }).map (fun r => r.cpt_id) :=
  ((C10_cpt_maxdepth_equals_scan dbA { cptNoArgs with max_measurement_depth := some 8 }
      (by unfold Orm.WellFormedDB; decide)
      (by unfold Orm.CPTMaxDepthInvariant; decide)) 1).mpr (by decide)
